import Mathlib

/-!
# Verification of the Simple-ETL-Pipeline transform and load stages

This development gives a shallow embedding of the repository's transform
module (`utils/transform.py`) and load module (`utils/load.py`) and proves
the specification claims about them.

Modelling conventions:
* A raw DataFrame cell is `Option String` (`none` models a pandas
  null/NaN).  The scraper produces string-or-null cells only, which is the
  domain of every claim; the embedding covers that domain.
* Python `float` values produced by parsing decimal strings are modelled
  as exact rationals (`ℚ`): the claims concern the decimal-string
  processing logic, not binary floating-point rounding.
* Column lookup (`df["price"]`) resolves the first column with that name;
  the embedding assumes the frames have uniquely named columns, as every
  frame produced by this pipeline does (the transform pipeline explicitly
  errors out to the empty frame when a required column is missing or
  duplicated, mirroring the KeyError/ValueError paths in the source).
* Exceptions are modelled explicitly: fallible inner computations return
  `Except String _`, and the catching wrappers convert errors to the
  documented fallback values.
-/

/-- ASCII whitespace recognised by Python `str.strip` / regex `\s`
(space, tab, newline, carriage return, vertical tab, form feed). -/
def pyIsSpace (c : Char) : Bool :=
  c == ' ' || c == '\t' || c == '\n' || c == '\r' ||
    c == Char.ofNat 11 || c == Char.ofNat 12

/-- Python `str.strip()`: drop leading and trailing whitespace. -/
def pyStrip (s : String) : String :=
  String.mk (((s.toList.dropWhile pyIsSpace).reverse.dropWhile pyIsSpace).reverse)

/-- Value of a list of decimal digit characters read in base 10
(the usual positional value, `'0'` ↦ 0, …, `'9'` ↦ 9). -/
def parseDigitsVal (l : List Char) : Nat :=
  l.foldl (fun a c => 10 * a + (c.toNat - 48)) 0

/-- Python `float(s)` restricted to the argument shapes that occur in the
pipeline: strings made of decimal digits and at most one `'.'`, with at
least one digit (`"12"`, `"12."`, `".5"`, `"1.25"`).  Everything else is a
parse failure (`ValueError` in Python), in particular `""`, `"."` and any
string with a second dot or a non-digit character. -/
def parsePyFloat (s : String) : Option ℚ :=
  let l := s.toList
  if l.all (fun c => c.isDigit || c == '.') && l.any Char.isDigit &&
      decide (l.count '.' ≤ 1) then
    let ip := l.takeWhile (fun c => c != '.')
    let fp := (l.dropWhile (fun c => c != '.')).drop 1
    some ((parseDigitsVal ip : ℚ) + (parseDigitsVal fp : ℚ) / 10 ^ fp.length)
  else none

/-! ## Field cleaners (`utils/transform.py`, lines 19-106) -/

/-- `CURRENCY_CONVERSION = 16000` (USD to IDR). -/
def CURRENCY_CONVERSION : ℚ := 16000

/-- Characters kept by `re.sub(r"[^\d.,]", "", s)`. -/
def keepPriceChar (c : Char) : Bool := c.isDigit || c == '.' || c == ','

/-- `re.sub(r"[^\d.,]", "", s)`: remove every character except digits,
dots and commas. -/
def stripNonNumeric (s : String) : String :=
  String.mk (s.toList.filter keepPriceChar)

/-- One step of `s.replace(',', '.')`. -/
def commaToDot (c : Char) : Char := if c == ',' then '.' else c

/-- The comma normalisation of `clean_price`: if the string contains a
comma and no dot, replace every comma by a dot; then delete any remaining
commas (thousand separators). -/
def commaRule (s : String) : String :=
  let l := s.toList
  let l2 := if l.contains ',' && !(l.contains '.') then l.map commaToDot else l
  String.mk (l2.filter (fun c => c != ','))

/-- `clean_price` (transform.py lines 27-44): null/blank input is absent;
otherwise strip to digits/dots/commas, apply the comma rule, parse as a
decimal number and multiply by `CURRENCY_CONVERSION`; a parse failure is
absent (the `except ValueError` path). -/
def clean_price (price_str : Option String) : Option ℚ :=
  match price_str with
  | none => none
  | some s =>
    if pyStrip s = "" then none
    else (parsePyFloat (commaRule (stripNonNumeric s))).map
      (fun q => q * CURRENCY_CONVERSION)

/-- The token matched by the regex `\d+(?:\.\d+)?` when anchored at a
digit: a maximal run of digits, then optionally a dot followed by a
nonempty maximal run of digits. -/
def grabNumToken (l : List Char) : List Char :=
  let ds := l.takeWhile Char.isDigit
  let rest := l.drop ds.length
  match rest with
  | '.' :: r2 =>
    let fs := r2.takeWhile Char.isDigit
    if fs.isEmpty then ds else ds ++ '.' :: fs
  | _ => ds

/-- `re.search(r"(\d+(?:\.\d+)?)", s)`: the leftmost match, which starts
at the first digit of the string. -/
def findNumToken : List Char → Option (List Char)
  | [] => none
  | c :: rest =>
    if c.isDigit then some (grabNumToken (c :: rest)) else findNumToken rest

/-- `clean_rating` (transform.py lines 46-57): extract the first
`digits[.digits]` token anywhere in the text and parse it as a float;
absent on null/blank input or when no digit occurs. -/
def clean_rating (rating_str : Option String) : Option ℚ :=
  match rating_str with
  | none => none
  | some s =>
    if pyStrip s = "" then none
    else
      match findNumToken s.toList with
      | some tok => parsePyFloat (String.mk tok)
      | none => none

/-- `re.search(r'(\d+)', s)`: the first maximal run of digits. -/
def firstDigitRun : List Char → Option (List Char)
  | [] => none
  | c :: rest =>
    if c.isDigit then some (c :: rest.takeWhile Char.isDigit)
    else firstDigitRun rest

/-- `clean_colors` (transform.py lines 59-76): absent on falsy input
(null or `""`) and on the sentinel `"Unknown Colors"`; otherwise the first
run of digits parsed as an integer, absent when there is none. -/
def clean_colors (colors_str : Option String) : Option Int :=
  match colors_str with
  | none => none
  | some s =>
    if s = "" || s = "Unknown Colors" then none
    else
      match firstDigitRun s.toList with
      | some ds => some ((parseDigitsVal ds : Nat) : Int)
      | none => none

/-- Case-insensitive test that `l` starts with the characters of
`label` (the anchored `re.IGNORECASE` match of the label). -/
def matchesLabelCI (label : String) (l : List Char) : Bool :=
  (l.take label.length).map Char.toLower == label.toList.map Char.toLower

/-- `re.sub(r"^Label:\s*", "", s, flags=re.IGNORECASE)`: if the string
starts with the label (case-insensitively), drop it together with the
following run of whitespace. -/
def stripLabelCI (label : String) (s : String) : String :=
  if matchesLabelCI label s.toList then
    String.mk ((s.toList.drop label.length).dropWhile pyIsSpace)
  else s

/-- `clean_size` (transform.py lines 78-91): null/blank input is absent;
otherwise strip a leading case-insensitive `Size:` label and surrounding
whitespace; absent if nothing remains.  (The `isinstance` guard of the
source concerns non-string cells, which do not occur in raw string/null
frames.) -/
def clean_size (size_str : Option String) : Option String :=
  match size_str with
  | none => none
  | some s =>
    if pyStrip s = "" then none
    else
      let cleaned := pyStrip (stripLabelCI "Size:" s)
      if cleaned = "" then none else some cleaned

/-- `clean_gender` (transform.py lines 93-106): same contract as
`clean_size` with the `Gender:` label. -/
def clean_gender (gender_str : Option String) : Option String :=
  match gender_str with
  | none => none
  | some s =>
    if pyStrip s = "" then none
    else
      let cleaned := pyStrip (stripLabelCI "Gender:" s)
      if cleaned = "" then none else some cleaned

/-! ## Dirty-record filter (`utils/transform.py`, lines 19-23 and 108-121) -/

def titlePatterns : List String := ["Unknown Product", "N/A", ""]

def ratingPatterns : List String := ["Invalid Rating / 5", "Not Rated", "N/A", ""]

/-- The source's price pattern list also contains `None`; a null cell is
dropped by the `notna` conjunct of the mask in every configured column, so
the patterns here list only the strings. -/
def pricePatterns : List String := ["Price Unavailable", "N/A", ""]

/-- `DIRTY_PATTERNS` in insertion order (title, rating, price). -/
def DIRTY_PATTERNS : List (String × List String) :=
  [("title", titlePatterns), ("rating", ratingPatterns), ("price", pricePatterns)]

/-- A raw cell: a display string, or a pandas null. -/
abbrev RawCell := Option String

/-- A raw DataFrame: named columns and rows of raw cells, in order. -/
structure RawDF where
  cols : List String
  rows : List (List RawCell)
  deriving DecidableEq, Repr

/-- Index of the first column with the given name. -/
def colIdx? : List String → String → Option Nat
  | [], _ => none
  | c :: rest, x =>
    if c = x then some 0 else (colIdx? rest x).map (fun i => i + 1)

/-- The cell of `row` in the named column (pandas `df[c]` per row). -/
def getCell (cols : List String) (row : List RawCell) (c : String) : RawCell :=
  match colIdx? cols c with
  | some i => row.getD i none
  | none => none

/-- The per-column keep-mask of `remove_dirty_data`:
`~df[col].isin(patterns) & df[col].notna()`. -/
def dirtyKeep (cols : List String) (patterns : List String) (col : String)
    (row : List RawCell) : Bool :=
  match getCell cols row col with
  | none => false
  | some v => !(patterns.contains v)

/-- `remove_dirty_data` (transform.py lines 108-121): an empty frame is
returned unchanged; otherwise, for each configured column present in the
frame, drop the rows whose raw value is null or equals one of the
column's placeholder strings. -/
def remove_dirty_data (df : RawDF) : RawDF :=
  if df.rows.isEmpty || df.cols.isEmpty then df
  else
    ⟨df.cols,
      DIRTY_PATTERNS.foldl
        (fun rows cp =>
          if df.cols.contains cp.1 then
            rows.filter (fun row => dirtyKeep df.cols cp.2 cp.1 row)
          else rows)
        df.rows⟩

/-! ## Transform pipeline (`utils/transform.py`, lines 123-174) -/

/-- A typed cell of the transformed frame: a carried-over display string,
a float, an integer, or a null. -/
inductive TVal where
  | vstr (s : String)
  | vnum (q : ℚ)
  | vint (n : Int)
  | vnull
  deriving DecidableEq, Repr

/-- A transformed DataFrame. -/
structure TypedDF where
  cols : List String
  rows : List (List TVal)
  deriving DecidableEq, Repr

/-- The per-cell effect of the five column assignments
`df[c] = df[c].apply(clean_c)`: cells of the five cleaned columns go
through their cleaner (absent results becoming nulls), cells of any other
column are carried over unchanged. -/
def cleanCell (c : String) (v : RawCell) : TVal :=
  if c = "price" then
    match clean_price v with
    | some q => TVal.vnum q
    | none => TVal.vnull
  else if c = "rating" then
    match clean_rating v with
    | some q => TVal.vnum q
    | none => TVal.vnull
  else if c = "colors" then
    match clean_colors v with
    | some n => TVal.vint n
    | none => TVal.vnull
  else if c = "size" then
    match clean_size v with
    | some t => TVal.vstr t
    | none => TVal.vnull
  else if c = "gender" then
    match clean_gender v with
    | some t => TVal.vstr t
    | none => TVal.vnull
  else
    match v with
    | some t => TVal.vstr t
    | none => TVal.vnull

/-- `clean_columns` of `transform_data`. -/
def REQUIRED_COLUMNS : List String := ["price", "rating", "colors", "size", "gender"]

/-- The keep-mask of `dropna(subset=clean_columns)`: every one of the five
cleaned columns holds a non-null value. -/
def rowComplete (cols : List String) (row : List TVal) : Bool :=
  REQUIRED_COLUMNS.all fun c =>
    match colIdx? cols c with
    | some i => decide (row.getD i TVal.vnull ≠ TVal.vnull)
    | none => false

/-- The fallible body of `transform_data` (inside its `try`): dirty-record
filter, then the five column cleanings, then `dropna` over the cleaned
columns and `reset_index` (implicit in the list representation).  Reading
`df[c]` for a column that is missing raises `KeyError`, and for a
duplicated column name the `pd.isna` test inside the cleaner raises
`ValueError`; both are modelled by the error branch. -/
def transformBody (df : RawDF) : Except String TypedDF :=
  let d1 := remove_dirty_data df
  if REQUIRED_COLUMNS.all (fun c => d1.cols.count c == 1) then
    Except.ok
      ⟨d1.cols,
        (d1.rows.map (fun r => List.zipWith cleanCell d1.cols r)).filter
          (fun r => rowComplete d1.cols r)⟩
  else Except.error "missing or duplicated required column"

/-- The empty frame `pd.DataFrame()` (no columns, no rows). -/
def emptyTypedDF : TypedDF := ⟨[], []⟩

/-- `transform_data` (transform.py lines 123-174): an empty input frame
and any exception of the body both resolve to the empty frame; otherwise
the result of the body. -/
def transform_data (df : RawDF) : TypedDF :=
  if df.rows.isEmpty || df.cols.isEmpty then emptyTypedDF
  else
    match transformBody df with
    | Except.ok t => t
    | Except.error _ => emptyTypedDF

example : clean_price (some "$100.50") = some (1608000 : ℚ) := by
  simp +decide [clean_price, commaRule, stripNonNumeric, parsePyFloat, keepPriceChar, commaToDot]
  norm_num [show parseDigitsVal ['1', '0', '0'] = 100 from by decide,
    show parseDigitsVal ['5', '0'] = 50 from by decide, CURRENCY_CONVERSION]
example : clean_price (some "100,50") = some ((1608000 : ℚ)) := by
  simp +decide [clean_price, commaRule, stripNonNumeric, parsePyFloat, keepPriceChar, commaToDot]
  norm_num [show parseDigitsVal ['1', '0', '0'] = 100 from by decide,
    show parseDigitsVal ['5', '0'] = 50 from by decide, CURRENCY_CONVERSION]
example : clean_price (some "1,000.50") = some ((16008 : ℚ) * 1000) := by
  simp +decide [clean_price, commaRule, stripNonNumeric, parsePyFloat, keepPriceChar, commaToDot]
  norm_num [show parseDigitsVal ['1', '0', '0', '0'] = 1000 from by decide,
    show parseDigitsVal ['5', '0'] = 50 from by decide, CURRENCY_CONVERSION]
example : clean_price (some "N/A") = none := by decide
example : clean_price none = none := by rfl
example : clean_rating (some "4.8 / 5") = some ((24 : ℚ) / 5) := by
  simp +decide [clean_rating, parsePyFloat, grabNumToken, findNumToken]
  norm_num [show parseDigitsVal ['4'] = 4 from by decide,
    show parseDigitsVal ['8'] = 8 from by decide]
example : clean_colors (some "3 Colors") = some 3 := by decide
example : clean_colors (some "Unknown Colors") = none := by decide
example : clean_size (some "Size: L") = some "L" := by decide
example : clean_gender (some "Gender: Male") = some "Male" := by decide

/-! ## Load stage (`utils/load.py`)

External effects (filesystem writes, Google-Sheets API calls, PostgreSQL
connections) are modelled by an explicit environment that dictates the
outcome of each external operation, and each sink returns, together with
its `Except`-value (`Except.error` models a raised `LoadError`), the trace
of external operations it attempted, in order.  Parts of the remote
protocol that the claims never inspect (the precise wording of wrapped
error messages, which of several remote steps failed) are collapsed into
environment-chosen message strings and per-stage success flags. -/

/-- One attempted external operation of a sink. -/
inductive ExtCall where
  | fsWrite (path : String)
  | sheetsAuth
  | sheetsOpen (id : String)
  | sheetsCreate
  | wsClear (name : String)
  | wsCreate (name : String)
  | wsWrite (name : String)
  | sheetsShare
  | pgConnect
  | pgCreateSchema (schema : String)
  | pgWrite (table : String)
  deriving DecidableEq, Repr

/-- Outcomes of the filesystem for the CSV sink. -/
structure CsvEnv where
  writeOk : Bool
  errMsg : String
  deriving DecidableEq, Repr

/-- Outcomes of the remote service for the Google-Sheets sink. -/
structure SheetsEnv where
  credsExists : Bool
  authOk : Bool
  openOk : Bool
  newId : String
  wsExists : Bool
  writeOk : Bool
  errMsg : String
  deriving DecidableEq, Repr

/-- Outcomes of the database for the PostgreSQL sink. -/
structure PgEnv where
  connectOk : Bool
  schemaOk : Bool
  writeOk : Bool
  errMsg : String
  deriving DecidableEq, Repr

/-- `df is None or df.empty` (pandas: a frame is empty when either axis
has length 0). -/
def dfEmptyOrNone (df : Option TypedDF) : Bool :=
  match df with
  | none => true
  | some d => d.rows.isEmpty || d.cols.isEmpty

/-- `save_to_csv` (load.py lines 37-73): reject an empty or absent frame
before any filesystem access; otherwise write `output_path/filename`
(overwriting) and return that path; a filesystem failure is wrapped into a
`LoadError`. -/
def save_to_csv (env : CsvEnv) (df : Option TypedDF)
    (output_path : String) (filename : String) :
    Except String String × List ExtCall :=
  if dfEmptyOrNone df then
    (Except.error "Invalid data for CSV export: DataFrame is empty or None", [])
  else
    let file_path := output_path ++ "/" ++ filename
    if env.writeOk then (Except.ok file_path, [ExtCall.fsWrite file_path])
    else (Except.error env.errMsg, [ExtCall.fsWrite file_path])

/-- The worksheet-and-write stage of `save_to_google_sheets` (load.py
lines 132-150): clear the named worksheet if it exists, create it
otherwise, write the frame into it, share the spreadsheet, and return the
spreadsheet id.  A failure of the write/share step is wrapped into a
`LoadError` whose message the environment chooses. -/
def sheetsWriteStage (env : SheetsEnv) (sheet_name : String) (sid : String)
    (pre : List ExtCall) : Except String String × List ExtCall :=
  let wsOp := if env.wsExists then ExtCall.wsClear sheet_name
    else ExtCall.wsCreate sheet_name
  if env.writeOk then
    (Except.ok sid, pre ++ [wsOp, ExtCall.wsWrite sheet_name, ExtCall.sheetsShare])
  else
    (Except.error env.errMsg, pre ++ [wsOp, ExtCall.wsWrite sheet_name])

/-- `save_to_google_sheets` (load.py lines 76-159): reject an empty or
absent frame before anything else; fail if the credentials file is
missing; authenticate; resolve the target spreadsheet (open the given id,
creating a new spreadsheet when the id is absent, or when it is not found
and `create_if_not_exists` holds); then run the worksheet write stage on
the worksheet named `sheet_name`. -/
def save_to_google_sheets (env : SheetsEnv) (df : Option TypedDF)
    (credentials_path : String) (spreadsheet_id : Option String := none)
    (sheet_name : String := "Products") (create_if_not_exists : Bool := true) :
    Except String String × List ExtCall :=
  if dfEmptyOrNone df then
    (Except.error "Invalid data for Google Sheets: DataFrame is empty or None", [])
  else if !env.credsExists then
    (Except.error
      ("Google Sheets export failed: Credentials file not found: " ++ credentials_path), [])
  else if !env.authOk then
    (Except.error env.errMsg, [ExtCall.sheetsAuth])
  else
    match spreadsheet_id with
    | some sid =>
      if env.openOk then
        sheetsWriteStage env sheet_name sid [ExtCall.sheetsAuth, ExtCall.sheetsOpen sid]
      else if create_if_not_exists then
        sheetsWriteStage env sheet_name env.newId
          [ExtCall.sheetsAuth, ExtCall.sheetsOpen sid, ExtCall.sheetsCreate]
      else
        (Except.error
          ("Google Sheets export failed: Spreadsheet with ID " ++ sid ++ " not found"),
          [ExtCall.sheetsAuth, ExtCall.sheetsOpen sid])
    | none =>
      sheetsWriteStage env sheet_name env.newId
        [ExtCall.sheetsAuth, ExtCall.sheetsCreate]

/-- PostgreSQL connection parameters, as a key-value mapping. -/
abbrev PgParams := List (String × String)

/-- The keys required by `save_to_postgresql`. -/
def REQUIRED_PG_PARAMS : List String := ["host", "database", "user", "password"]

/-- `save_to_postgresql` (load.py lines 162-243): reject an empty or
absent frame before anything else; reject missing required connection
parameters (first missing key, before any connection attempt); open a
connection purely to verify reachability; create the schema when it is
not `public`; write the table; return `true` on success.  Every failure
is wrapped into a `LoadError`. -/
def save_to_postgresql (env : PgEnv) (df : Option TypedDF)
    (table_name : String) (connection_params : PgParams)
    (schema : String := "public") :
    Except String Bool × List ExtCall :=
  if dfEmptyOrNone df then
    (Except.error "Invalid data or parameters: DataFrame is empty or None", [])
  else
    match REQUIRED_PG_PARAMS.find? (fun p => (connection_params.lookup p).isNone) with
    | some p =>
      (Except.error ("Invalid data or parameters: Missing required connection parameter: " ++ p), [])
    | none =>
      if !env.connectOk then
        (Except.error ("Could not connect to PostgreSQL: " ++ env.errMsg), [ExtCall.pgConnect])
      else if schema != "public" && !env.schemaOk then
        (Except.error env.errMsg, [ExtCall.pgConnect, ExtCall.pgCreateSchema schema])
      else
        let pre := if schema != "public" then
            [ExtCall.pgConnect, ExtCall.pgCreateSchema schema]
          else [ExtCall.pgConnect]
        if env.writeOk then (Except.ok true, pre ++ [ExtCall.pgWrite table_name])
        else (Except.error env.errMsg, pre ++ [ExtCall.pgWrite table_name])

/-- The Load Result mapping of `load_data` (load.py lines 282-286): the
three success slots are initialised to `None`/`None`/`False` and the three
error keys are absent (`none`). -/
structure LoadResults where
  csv_path : Option String
  sheets_id : Option String
  postgres_success : Bool
  csv_error : Option String
  sheets_error : Option String
  postgres_error : Option String
  deriving DecidableEq, Repr

/-- The initial `results` dict of `load_data`. -/
def emptyResults : LoadResults :=
  ⟨none, none, false, none, none, none⟩


/-! ## Helper lemmas: the load orchestrator -/

/-- The CSV slot of the Load Result: (success value, error message, trace)
produced by the CSV block of `load_data`. -/
def csvSlot (cenv : CsvEnv) (df : Option TypedDF) (save_csv : Bool)
    (csv_path csv_filename : String) :
    Option String × Option String × List ExtCall :=
  if save_csv then
    match save_to_csv cenv df csv_path csv_filename with
    | (Except.ok p, t) => (some p, none, t)
    | (Except.error e, t) => (none, some e, t)
  else (none, none, [])

/-- The Google-Sheets slot of the Load Result. -/
def sheetsSlot (senv : SheetsEnv) (df : Option TypedDF) (save_sheets : Bool)
    (creds : Option String) (sid : Option String) :
    Option String × Option String × List ExtCall :=
  if save_sheets then
    match creds with
    | none => (none, some "Credentials path not provided", [])
    | some cp =>
      if cp = "" then (none, some "Credentials path not provided", [])
      else
        match save_to_google_sheets senv df cp sid with
        | (Except.ok i, t) => (some i, none, t)
        | (Except.error e, t) => (none, some e, t)
  else (none, none, [])

/-- The PostgreSQL slot of the Load Result. -/
def pgSlot (penv : PgEnv) (df : Option TypedDF) (save_postgres : Bool)
    (pp : Option PgParams) (table : String) :
    Bool × Option String × List ExtCall :=
  if save_postgres then
    match pp with
    | none => (false, some "Connection parameters not provided", [])
    | some ps =>
      if ps.isEmpty then (false, some "Connection parameters not provided", [])
      else
        match save_to_postgresql penv df table ps with
        | (Except.ok b, t) => (b, none, t)
        | (Except.error e, t) => (false, some e, t)
  else (false, none, [])

/-- `load_data` (load.py lines 245-324): raise a `ValueError` (the
`Except.error`) when no destination is enabled, before touching any sink;
otherwise run the enabled sinks in order (CSV, Google Sheets, PostgreSQL).
Each of the three source blocks touches a disjoint pair of keys of the
`results` dict — its success slot on a successful sink call, its error
slot on a caught `LoadError` or on missing required parameters (in which
case the sink is not invoked) — so the final dict is the record assembled
from the three block outcomes.  The spreadsheet sink is invoked without
the `sheets_name` argument, so its default worksheet name applies.
Returns the result mapping together with the concatenated trace of
attempted external operations. -/
def load_data (cenv : CsvEnv) (senv : SheetsEnv) (penv : PgEnv)
    (df : Option TypedDF)
    (save_csv : Bool := true) (save_sheets : Bool := false)
    (save_postgres : Bool := false)
    (csv_path : String := "./data") (csv_filename : String := "products.csv")
    (sheets_credentials_path : Option String := none)
    (sheets_id : Option String := none)
    (sheets_name : String := "Products")
    (postgres_params : Option PgParams := none)
    (postgres_table : String := "products") :
    Except String (LoadResults × List ExtCall) :=
  if !(save_csv || save_sheets || save_postgres) then
    Except.error "At least one storage destination must be selected"
  else
    let csv := csvSlot cenv df save_csv csv_path csv_filename
    let sheets := sheetsSlot senv df save_sheets sheets_credentials_path sheets_id
    let pg := pgSlot penv df save_postgres postgres_params postgres_table
    Except.ok
      ({ csv_path := csv.1, sheets_id := sheets.1, postgres_success := pg.1,
         csv_error := csv.2.1, sheets_error := sheets.2.1,
         postgres_error := pg.2.1 },
        csv.2.2 ++ sheets.2.2 ++ pg.2.2)

/-- The worksheet name an external operation targets, if any. -/
def wsName : ExtCall → Option String
  | ExtCall.wsClear n => some n
  | ExtCall.wsCreate n => some n
  | ExtCall.wsWrite n => some n
  | _ => none

/-! ## Helper lemmas: characters, strings and decimal parsing -/

/-- Every character of the list is a decimal digit. -/
def AllDigit (l : List Char) : Prop := ∀ c ∈ l, c.isDigit = true

theorem stringMk_toList (s : String) : String.mk s.toList = s := by
  cases s
  rfl

theorem stringMk_ne_empty {l : List Char} (h : l ≠ []) : String.mk l ≠ "" := by
  intro he
  apply h
  have : l = ([] : List Char) := by
    have := congrArg String.toList he
    simpa using this
  exact this

theorem digit_beq_false {c x : Char} (h : c.isDigit = true) (hx : x.isDigit = false) :
    (c == x) = false := by
  cases hc : c == x with
  | false => rfl
  | true =>
    have he : c = x := beq_iff_eq.mp hc
    subst he
    rw [h] at hx
    exact absurd hx (by simp)

theorem digit_beq_dot_false {c : Char} (h : c.isDigit = true) : (c == '.') = false :=
  digit_beq_false h (by decide)

theorem digit_bne_dot {c : Char} (h : c.isDigit = true) : (c != '.') = true := by
  simp [bne, digit_beq_dot_false h]

theorem digit_beq_comma_false {c : Char} (h : c.isDigit = true) : (c == ',') = false :=
  digit_beq_false h (by decide)

theorem digit_not_space {c : Char} (h : c.isDigit = true) : pyIsSpace c = false := by
  unfold pyIsSpace
  rw [digit_beq_false h (by decide), digit_beq_false h (by decide),
    digit_beq_false h (by decide), digit_beq_false h (by decide),
    digit_beq_false h (by decide), digit_beq_false h (by decide)]
  rfl

theorem takeWhile_all {p : Char → Bool} {l : List Char} (h : ∀ c ∈ l, p c = true) :
    l.takeWhile p = l := by
  induction l with
  | nil => rfl
  | cons c rest ih =>
    rw [List.takeWhile_cons, h c (by simp)]
    simp [ih fun x hx => h x (by simp [hx])]

theorem dropWhile_all {p : Char → Bool} {l : List Char} (h : ∀ c ∈ l, p c = true) :
    l.dropWhile p = [] := by
  induction l with
  | nil => rfl
  | cons c rest ih =>
    rw [List.dropWhile_cons, h c (by simp)]
    simp [ih fun x hx => h x (by simp [hx])]

theorem dropWhile_none {p : Char → Bool} {l : List Char} (h : ∀ c ∈ l, p c = false) :
    l.dropWhile p = l := by
  cases l with
  | nil => rfl
  | cons c rest =>
    rw [List.dropWhile_cons, h c (by simp)]
    simp

theorem pyStrip_eq_self {l : List Char} (h : ∀ c ∈ l, pyIsSpace c = false) :
    pyStrip (String.mk l) = String.mk l := by
  unfold pyStrip
  have h1 : l.dropWhile pyIsSpace = l := dropWhile_none h
  have h2 : ∀ c ∈ l.reverse, pyIsSpace c = false := fun c hc => h c (List.mem_reverse.mp hc)
  simp only [show (String.mk l).toList = l from rfl, h1, dropWhile_none h2, List.reverse_reverse]

theorem pyStrip_str_eq_self {s : String} (h : ∀ c ∈ s.toList, pyIsSpace c = false) :
    pyStrip s = s := by
  have := pyStrip_eq_self h
  rwa [stringMk_toList] at this

theorem count_dot_zero {l : List Char} (h : AllDigit l) : l.count '.' = 0 :=
  List.count_eq_zero_of_not_mem (fun hm => absurd (h '.' hm) (by decide))

theorem parsePyFloat_digits {a : List Char} (ha : AllDigit a) (hne : a ≠ []) :
    parsePyFloat (String.mk a) = some ((parseDigitsVal a : ℚ)) := by
  unfold parsePyFloat
  have hall : a.all (fun c => c.isDigit || c == '.') = true :=
    List.all_eq_true.mpr fun c hc => by simp [ha c hc]
  have hany : a.any Char.isDigit = true := by
    cases a with
    | nil => exact absurd rfl hne
    | cons c rest => exact List.any_eq_true.mpr ⟨c, by simp, ha c (by simp)⟩
  simp only [show (String.mk a).toList = a from rfl]
  rw [if_pos (by simp [hall, hany, count_dot_zero ha])]
  rw [takeWhile_all (fun c hc => digit_bne_dot (ha c hc)),
    dropWhile_all (fun c hc => digit_bne_dot (ha c hc))]
  simp [parseDigitsVal]

theorem parsePyFloat_digits_dot {a b : List Char} (ha : AllDigit a) (hb : AllDigit b)
    (hne : a ≠ [] ∨ b ≠ []) :
    parsePyFloat (String.mk (a ++ '.' :: b)) =
      some ((parseDigitsVal a : ℚ) + (parseDigitsVal b : ℚ) / 10 ^ b.length) := by
  unfold parsePyFloat
  have hall : (a ++ '.' :: b).all (fun c => c.isDigit || c == '.') = true := by
    refine List.all_eq_true.mpr fun c hc => ?_
    rcases List.mem_append.mp hc with hc | hc
    · simp [ha c hc]
    · rcases List.mem_cons.mp hc with hc | hc
      · simp [hc]
      · simp [hb c hc]
  have hany : (a ++ '.' :: b).any Char.isDigit = true := by
    refine List.any_eq_true.mpr ?_
    rcases hne with hne | hne
    · cases a with
      | nil => exact absurd rfl hne
      | cons c rest => exact ⟨c, by simp, ha c (by simp)⟩
    · cases b with
      | nil => exact absurd rfl hne
      | cons c rest => exact ⟨c, by simp, hb c (by simp)⟩
  simp only [show (String.mk (a ++ '.' :: b)).toList = a ++ '.' :: b from rfl]
  rw [if_pos (by
    simp [hall, hany, count_dot_zero ha, count_dot_zero hb, List.count_cons])]
  have htake : (a ++ '.' :: b).takeWhile (fun c => c != '.') = a := by
    rw [List.takeWhile_append_of_pos (fun c hc => digit_bne_dot (ha c hc))]
    simp [List.takeWhile_cons]
  have hdrop : (a ++ '.' :: b).dropWhile (fun c => c != '.') = '.' :: b := by
    rw [List.dropWhile_append_of_pos (fun c hc => digit_bne_dot (ha c hc))]
    simp [List.dropWhile_cons]
  rw [htake, hdrop]
  simp

/-! ## Helper lemmas: the individual cleaners -/

/-- The numeric-literal shape `digits` or `digits.digits` (the shape of a
stringified nonnegative Python float or int). -/
def NumLit (l : List Char) : Prop :=
  (AllDigit l ∧ l ≠ []) ∨
    ∃ a b, l = a ++ '.' :: b ∧ AllDigit a ∧ AllDigit b ∧ a ≠ [] ∧ b ≠ []

theorem NumLit.ne_nil {l : List Char} (h : NumLit l) : l ≠ [] := by
  rcases h with ⟨_, h⟩ | ⟨a, b, rfl, _, _, ha, _⟩
  · exact h
  · cases a with
    | nil => exact absurd rfl ha
    | cons c rest => simp

theorem NumLit.digit_or_dot {l : List Char} (h : NumLit l) :
    ∀ c ∈ l, c.isDigit = true ∨ c = '.' := by
  rcases h with ⟨h, _⟩ | ⟨a, b, rfl, ha, hb, _, _⟩
  · exact fun c hc => Or.inl (h c hc)
  · intro c hc
    rcases List.mem_append.mp hc with hc | hc
    · exact Or.inl (ha c hc)
    · rcases List.mem_cons.mp hc with hc | hc
      · exact Or.inr hc
      · exact Or.inl (hb c hc)

theorem NumLit.no_space {l : List Char} (h : NumLit l) :
    ∀ c ∈ l, pyIsSpace c = false := by
  intro c hc
  rcases h.digit_or_dot c hc with hd | hd
  · exact digit_not_space hd
  · subst hd
    decide

theorem NumLit.no_comma {l : List Char} (h : NumLit l) :
    ∀ c ∈ l, (c == ',') = false := by
  intro c hc
  rcases h.digit_or_dot c hc with hd | hd
  · exact digit_beq_comma_false hd
  · subst hd
    decide

theorem NumLit.keep {l : List Char} (h : NumLit l) :
    ∀ c ∈ l, keepPriceChar c = true := by
  intro c hc
  rcases h.digit_or_dot c hc with hd | hd
  · simp [keepPriceChar, hd]
  · subst hd
    decide

theorem NumLit.pyStrip_self {l : List Char} (h : NumLit l) :
    pyStrip (String.mk l) = String.mk l :=
  pyStrip_eq_self h.no_space

theorem contains_comma_false {l : List Char} (h : ∀ c ∈ l, (c == ',') = false) :
    l.contains ',' = false := by
  induction l with
  | nil => rfl
  | cons c rest ih =>
    have hc : (',' == c) = false :=
      beq_eq_false_iff_ne.mpr (Ne.symm (beq_eq_false_iff_ne.mp (h c (by simp))))
    rw [List.contains_cons, hc, ih fun x hx => h x (by simp [hx])]
    rfl

/-- `stripNonNumeric` keeps a string of digits/dots/commas intact. -/
theorem stripNonNumeric_keep {l : List Char} (h : ∀ c ∈ l, keepPriceChar c = true) :
    stripNonNumeric (String.mk l) = String.mk l := by
  unfold stripNonNumeric
  simp only [show (String.mk l).toList = l from rfl]
  rw [List.filter_eq_self.mpr h]

/-- `commaRule` is the identity on comma-free strings. -/
theorem commaRule_no_comma {l : List Char} (h : ∀ c ∈ l, (c == ',') = false) :
    commaRule (String.mk l) = String.mk l := by
  have hmem : ',' ∉ l := fun hm => by simpa using h ',' hm
  have h2 : l.filter (fun c => c != ',') = l :=
    List.filter_eq_self.mpr (fun c hc => by simp [bne, h c hc])
  simp [commaRule, h2, hmem]

/-- `clean_price` on a numeric-literal string: the parsed value times the
conversion constant. -/
theorem clean_price_numlit {l : List Char} {q : ℚ} (h : NumLit l)
    (hp : parsePyFloat (String.mk l) = some q) :
    clean_price (some (String.mk l)) = some (q * CURRENCY_CONVERSION) := by
  simp only [clean_price]
  rw [if_neg (by rw [h.pyStrip_self]; exact stringMk_ne_empty h.ne_nil)]
  rw [stripNonNumeric_keep h.keep, commaRule_no_comma h.no_comma, hp]
  rfl

/-- `clean_price` fails exactly on blank input or a parse failure of the
normalised string. -/
theorem clean_price_none_iff (s : String) :
    clean_price (some s) = none ↔
      pyStrip s = "" ∨ parsePyFloat (commaRule (stripNonNumeric s)) = none := by
  simp only [clean_price]
  by_cases h : pyStrip s = ""
  · simp [h]
  · simp only [h, if_false, false_or]
    cases hp : parsePyFloat (commaRule (stripNonNumeric s)) with
    | none => simp
    | some q => simp

/-- `clean_price` on a successfully parsed normalised string. -/
theorem clean_price_parse {s : String} {q : ℚ} (h1 : ¬ pyStrip s = "")
    (h2 : parsePyFloat (commaRule (stripNonNumeric s)) = some q) :
    clean_price (some s) = some (q * CURRENCY_CONVERSION) := by
  simp only [clean_price]
  rw [if_neg h1, h2]
  rfl

/-- On a numeric-literal string the rating regex matches the whole
string. -/
theorem findNumToken_numlit {l : List Char} (h : NumLit l) :
    findNumToken l = some l := by
  rcases h with ⟨hd, hne⟩ | ⟨a, b, rfl, ha, hb, hane, hbne⟩
  · cases l with
    | nil => exact absurd rfl hne
    | cons c rest =>
      simp only [findNumToken, hd c (by simp), if_true]
      simp only [grabNumToken, takeWhile_all hd, List.drop_length]
  · cases b with
    | nil => exact absurd rfl hbne
    | cons f bt =>
      cases a with
      | nil => exact absurd rfl hane
      | cons c rest =>
        have hd : c.isDigit = true := ha c (by simp)
        have htake : List.takeWhile Char.isDigit (c :: (rest ++ '.' :: f :: bt)) = c :: rest := by
          have h2 := @List.takeWhile_append_of_pos Char Char.isDigit
            (c :: rest) ('.' :: f :: bt) ha
          simpa [List.takeWhile_cons] using h2
        have hdrop : List.drop (c :: rest).length (c :: (rest ++ '.' :: f :: bt)) = '.' :: f :: bt := by
          have h3 := List.drop_left (c :: rest) ('.' :: f :: bt)
          simpa using h3
        have hbtk : List.takeWhile Char.isDigit (f :: bt) = f :: bt := takeWhile_all hb
        simp only [List.cons_append]
        simp only [findNumToken, hd, if_true]
        simp only [grabNumToken, htake, List.length_cons, hdrop, hbtk]
        simp [hb f (by simp), hbtk, List.cons_append]

/-- `clean_rating` on a numeric-literal string parses the whole string. -/
theorem clean_rating_numlit {l : List Char} (h : NumLit l) :
    clean_rating (some (String.mk l)) = parsePyFloat (String.mk l) := by
  simp only [clean_rating]
  rw [if_neg (by rw [h.pyStrip_self]; exact stringMk_ne_empty h.ne_nil)]
  simp only [show (String.mk l).toList = l from rfl]
  rw [findNumToken_numlit h]

/-- `clean_colors` on a nonempty all-digit string parses the whole
string. -/
theorem clean_colors_digits {l : List Char} (h : AllDigit l) (hne : l ≠ []) :
    clean_colors (some (String.mk l)) = some ((parseDigitsVal l : Nat) : Int) := by
  simp only [clean_colors]
  have hne' : String.mk l ≠ "" := stringMk_ne_empty hne
  have hnu : String.mk l ≠ "Unknown Colors" := by
    intro he
    have : l = "Unknown Colors".toList := by
      have := congrArg String.toList he
      simpa using this
    have hu : 'U' ∈ l := by rw [this]; decide
    exact absurd (h 'U' hu) (by decide)
  rw [if_neg (by simp [hne', hnu])]
  simp only [show (String.mk l).toList = l from rfl]
  cases l with
  | nil => exact absurd rfl hne
  | cons c rest =>
    have htw : rest.takeWhile Char.isDigit = rest :=
      takeWhile_all (fun x hx => h x (List.mem_cons_of_mem _ hx))
    simp only [firstDigitRun, h c (by simp), if_true, htw]

/-- `clean_size` is the identity on a nonempty, already-stripped string
that does not begin with the (case-insensitive) `Size:` label. -/
theorem clean_size_canon {v : String} (h1 : pyStrip v = v) (h2 : v ≠ "")
    (h3 : matchesLabelCI "Size:" v.toList = false) :
    clean_size (some v) = some v := by
  simp only [clean_size]
  rw [if_neg (by rw [h1]; exact h2)]
  unfold stripLabelCI
  rw [h3]
  simp only [Bool.false_eq_true, if_false, h1]
  rw [if_neg h2]

/-- `clean_gender` is the identity on a nonempty, already-stripped string
that does not begin with the (case-insensitive) `Gender:` label. -/
theorem clean_gender_canon {v : String} (h1 : pyStrip v = v) (h2 : v ≠ "")
    (h3 : matchesLabelCI "Gender:" v.toList = false) :
    clean_gender (some v) = some v := by
  simp only [clean_gender]
  rw [if_neg (by rw [h1]; exact h2)]
  unfold stripLabelCI
  rw [h3]
  simp only [Bool.false_eq_true, if_false, h1]
  rw [if_neg h2]

/-! ## Helper lemmas: cleaners on digit-free input (for the safety claim) -/

theorem findNumToken_no_digit {l : List Char} (h : ∀ c ∈ l, c.isDigit = false) :
    findNumToken l = none := by
  induction l with
  | nil => rfl
  | cons c rest ih =>
    simp only [findNumToken, h c (by simp), Bool.false_eq_true, if_false]
    exact ih fun x hx => h x (by simp [hx])

theorem firstDigitRun_no_digit {l : List Char} (h : ∀ c ∈ l, c.isDigit = false) :
    firstDigitRun l = none := by
  induction l with
  | nil => rfl
  | cons c rest ih =>
    simp only [firstDigitRun, h c (by simp), Bool.false_eq_true, if_false]
    exact ih fun x hx => h x (by simp [hx])

theorem parsePyFloat_no_digit {s : String} (h : ∀ c ∈ s.toList, c.isDigit = false) :
    parsePyFloat s = none := by
  unfold parsePyFloat
  rw [if_neg]
  intro hc
  rcases List.any_eq_true.mp (Bool.and_elim_right (Bool.and_elim_left hc)) with ⟨c, hm, hd⟩
  rw [h c hm] at hd
  exact absurd hd (by simp)

theorem no_digit_filter {p : Char → Bool} {l : List Char}
    (h : ∀ c ∈ l, c.isDigit = false) : ∀ c ∈ l.filter p, c.isDigit = false :=
  fun c hc => h c (List.mem_of_mem_filter hc)

theorem no_digit_map_commaToDot {l : List Char} (h : ∀ c ∈ l, c.isDigit = false) :
    ∀ c ∈ l.map commaToDot, c.isDigit = false := by
  intro c hc
  rcases List.mem_map.mp hc with ⟨x, hx, rfl⟩
  unfold commaToDot
  cases hb : x == ',' with
  | true => simp [hb]
  | false => simpa [hb] using h x hx

theorem commaRuleList_no_digit {l : List Char} (h : ∀ c ∈ l, c.isDigit = false) :
    ∀ c ∈ ((if l.contains ',' && !(l.contains '.') then l.map commaToDot
      else l).filter (fun c => c != ',')), c.isDigit = false := by
  intro c hc
  have hc' := List.mem_of_mem_filter hc
  by_cases hcond : (l.contains ',' && !(l.contains '.')) = true
  · rw [if_pos hcond] at hc'
    exact no_digit_map_commaToDot h c hc'
  · rw [if_neg hcond] at hc'
    exact h c hc'

theorem clean_price_no_digit {s : String} (h : ∀ c ∈ s.toList, c.isDigit = false) :
    clean_price (some s) = none := by
  rw [clean_price_none_iff]
  right
  apply parsePyFloat_no_digit
  intro c hc
  exact commaRuleList_no_digit (no_digit_filter h) c hc

theorem clean_rating_no_digit {s : String} (h : ∀ c ∈ s.toList, c.isDigit = false) :
    clean_rating (some s) = none := by
  simp only [clean_rating]
  by_cases hb : pyStrip s = ""
  · simp [hb]
  · rw [if_neg hb, findNumToken_no_digit h]

theorem clean_colors_no_digit {s : String} (h : ∀ c ∈ s.toList, c.isDigit = false) :
    clean_colors (some s) = none := by
  simp only [clean_colors]
  by_cases hb : s = "" ∨ s = "Unknown Colors"
  · simp [hb]
  · rw [if_neg (by simpa using hb), firstDigitRun_no_digit h]

/-! ## Helper lemmas: dirty-record filter and column lookup -/

/-- A row is dirty when, for some configured column present in the frame,
its keep-mask is false (null value or placeholder match). -/
def isDirtyRow (cols : List String) (row : List RawCell) : Bool :=
  DIRTY_PATTERNS.any fun cp => cols.contains cp.1 && !(dirtyKeep cols cp.2 cp.1 row)

theorem not_any_eq_all_not {α : Type} (l : List α) (f : α → Bool) :
    (!(l.any f)) = l.all (fun x => !(f x)) := by
  induction l with
  | nil => rfl
  | cons a l ih => simp [List.any_cons, List.all_cons, ih, Bool.not_or]

theorem all_congr_of_eq {α : Type} {l : List α} {f g : α → Bool}
    (h : ∀ x ∈ l, f x = g x) : l.all f = l.all g := by
  induction l with
  | nil => rfl
  | cons a l ih =>
    simp only [List.all_cons, h a (by simp)]
    rw [ih fun x hx => h x (by simp [hx])]

theorem foldl_dirty_filter (cols : List String) (l : List (String × List String))
    (rows : List (List RawCell)) :
    l.foldl
      (fun rows cp =>
        if cols.contains cp.1 then
          rows.filter (fun row => dirtyKeep cols cp.2 cp.1 row)
        else rows)
      rows
    = rows.filter
        (fun r => l.all (fun cp => !(cols.contains cp.1) || dirtyKeep cols cp.2 cp.1 r)) := by
  induction l generalizing rows with
  | nil =>
    simp only [List.foldl_nil, List.all_nil]
    exact (List.filter_eq_self.mpr fun a _ => rfl).symm
  | cons cp l ih =>
    rw [List.foldl_cons]
    by_cases hc : cols.contains cp.1 = true
    · rw [if_pos hc, ih, List.filter_filter]
      apply List.filter_congr
      intro r _
      simp only [List.all_cons]
      rw [hc]
      simp [Bool.and_comm]
    · rw [if_neg hc, ih]
      apply List.filter_congr
      intro r _
      simp only [List.all_cons]
      rw [Bool.not_eq_true] at hc
      rw [hc]
      simp

/-- `remove_dirty_data` is exactly the order-preserving filter that drops
the dirty rows. -/
theorem remove_dirty_eq (df : RawDF) :
    remove_dirty_data df =
      ⟨df.cols, df.rows.filter (fun r => !(isDirtyRow df.cols r))⟩ := by
  unfold remove_dirty_data
  by_cases h : (df.rows.isEmpty || df.cols.isEmpty) = true
  · rw [if_pos h]
    rcases (by simpa using h : df.rows = [] ∨ df.cols = []) with h | h
    · obtain ⟨cols, rows⟩ := df
      simp only at h
      subst h
      rfl
    · obtain ⟨cols, rows⟩ := df
      simp only at h
      subst h
      simp only [RawDF.mk.injEq, true_and]
      refine (List.filter_eq_self.mpr fun r _ => ?_).symm
      unfold isDirtyRow
      simp [DIRTY_PATTERNS]
  · rw [if_neg h]
    simp only [RawDF.mk.injEq, true_and]
    rw [foldl_dirty_filter]
    apply List.filter_congr
    intro r _
    unfold isDirtyRow
    rw [not_any_eq_all_not]
    apply all_congr_of_eq
    intro cp _
    simp [Bool.not_and]

theorem colIdx?_of_mem {cols : List String} {x : String} (h : x ∈ cols) :
    ∃ i, colIdx? cols x = some i := by
  induction cols with
  | nil => exact absurd h (by simp)
  | cons c rest ih =>
    by_cases hc : c = x
    · exact ⟨0, by simp [colIdx?, hc]⟩
    · rcases List.mem_cons.mp h with h | h
      · exact absurd h.symm hc
      · rcases ih h with ⟨i, hi⟩
        exact ⟨i + 1, by simp [colIdx?, hc, hi]⟩

theorem colIdx?_spec {cols : List String} {x : String} {i : Nat}
    (h : colIdx? cols x = some i) : i < cols.length ∧ cols.getD i "" = x := by
  induction cols generalizing i with
  | nil => simp [colIdx?] at h
  | cons c rest ih =>
    unfold colIdx? at h
    by_cases hc : c = x
    · rw [if_pos hc] at h
      have h0 : i = 0 := by
        have := Option.some.inj h
        omega
      subst h0
      exact ⟨by simp, by simp [hc]⟩
    · rw [if_neg hc] at h
      cases hr : colIdx? rest x with
      | none =>
        rw [hr] at h
        simp at h
      | some j =>
        rw [hr] at h
        simp at h
        have hj : i = j + 1 := h.symm
        subst hj
        rcases ih hr with ⟨hlt, hget⟩
        exact ⟨by simpa using hlt, by simpa using hget⟩

theorem remove_dirty_cols (df : RawDF) : (remove_dirty_data df).cols = df.cols := by
  rw [remove_dirty_eq]

theorem remove_dirty_sublist (df : RawDF) :
    (remove_dirty_data df).rows.Sublist df.rows := by
  rw [remove_dirty_eq]
  exact List.filter_sublist _

/-- Rows surviving `remove_dirty_data` are original rows that are not
dirty. -/
theorem remove_dirty_mem {df : RawDF} {r : List RawCell}
    (h : r ∈ (remove_dirty_data df).rows) :
    r ∈ df.rows ∧ isDirtyRow df.cols r = false := by
  rw [remove_dirty_eq] at h
  simp only [List.mem_filter, Bool.not_eq_true'] at h
  exact h

/-! ## Claims about the transform pipeline -/

/-- C2: for every input table, `transform_data` never raises and always
returns a table: the empty-input case, the missing-required-column case
(the `KeyError` caught by the handler) and any error of the fallible body
all resolve to the empty frame; in every other case the result is the
body's ok-value.  In the embedding the totality of `transform_data` is the
"never raises" contract; the conjuncts identify the fail-soft cases. -/
theorem C2_transform_fail_soft (df : RawDF) :
    ((df.rows.isEmpty || df.cols.isEmpty) = true → transform_data df = emptyTypedDF) ∧
    (∀ c ∈ REQUIRED_COLUMNS, ¬ c ∈ df.cols → transform_data df = emptyTypedDF) ∧
    (∀ e, transformBody df = Except.error e → transform_data df = emptyTypedDF) ∧
    (transform_data df = emptyTypedDF ∨ transformBody df = Except.ok (transform_data df)) := by
  refine ⟨?_, ?_, ?_, ?_⟩
  · intro h
    unfold transform_data
    rw [if_pos h]
  · intro c hc hmem
    unfold transform_data
    by_cases hemp : (df.rows.isEmpty || df.cols.isEmpty) = true
    · rw [if_pos hemp]
    · rw [if_neg hemp]
      have hcount : (remove_dirty_data df).cols.count c = 0 := by
        rw [remove_dirty_cols]
        exact List.count_eq_zero_of_not_mem hmem
      have hall : (REQUIRED_COLUMNS.all
          fun c2 => (remove_dirty_data df).cols.count c2 == 1) = false := by
        by_contra hA
        rw [Bool.not_eq_false] at hA
        have h1 := List.all_eq_true.mp hA c hc
        rw [hcount] at h1
        exact absurd h1 (by simp)
      simp only [transformBody]
      rw [hall]
      simp
  · intro e he
    unfold transform_data
    by_cases hemp : (df.rows.isEmpty || df.cols.isEmpty) = true
    · rw [if_pos hemp]
    · rw [if_neg hemp, he]
  · unfold transform_data
    by_cases hemp : (df.rows.isEmpty || df.cols.isEmpty) = true
    · rw [if_pos hemp]
      exact Or.inl rfl
    · rw [if_neg hemp]
      cases hbody : transformBody df with
      | error e => exact Or.inl rfl
      | ok t => exact Or.inr rfl

def dfEmptyW : RawDF := ⟨["title", "price"], []⟩

def dfMissingW : RawDF := ⟨["title", "price"], [[some "x", some "1"]]⟩

/-- Witness for C2 at concrete inputs: an empty frame and a frame missing
the `rating` column both transform to the empty frame. -/
theorem C2_transform_fail_soft_witness :
    transform_data dfEmptyW = emptyTypedDF ∧
    transform_data dfMissingW = emptyTypedDF ∧
    transform_data dfMissingW = emptyTypedDF :=
  ⟨(C2_transform_fail_soft dfEmptyW).1 (by decide),
    (C2_transform_fail_soft dfMissingW).2.1 "rating" (by decide) (by decide),
    (C2_transform_fail_soft dfMissingW).2.2.1 "missing or duplicated required column"
      (by rfl)⟩

/-- C3: every row of the transformed table is non-null in each of the five
cleaned columns, and the output rows are (in order) cleaned versions of a
subsequence of the input rows — so survivors keep their relative input
order, and the list representation is the dense 0-based re-index. -/
theorem C3_transform_invariants (df : RawDF) :
    (∀ r ∈ (transform_data df).rows, ∀ c ∈ REQUIRED_COLUMNS,
      ∀ i, colIdx? (transform_data df).cols c = some i →
        r.getD i TVal.vnull ≠ TVal.vnull) ∧
    (transform_data df).rows.Sublist
      (df.rows.map (fun r => List.zipWith cleanCell df.cols r)) := by
  unfold transform_data
  by_cases hemp : (df.rows.isEmpty || df.cols.isEmpty) = true
  · rw [if_pos hemp]
    exact ⟨fun r hr => absurd hr (by simp [emptyTypedDF]), List.nil_sublist _⟩
  · rw [if_neg hemp]
    cases hbody : transformBody df with
    | error e =>
      exact ⟨fun r hr => absurd hr (by simp [emptyTypedDF]), List.nil_sublist _⟩
    | ok t =>
      simp only [transformBody] at hbody
      by_cases hchk : (REQUIRED_COLUMNS.all
          fun c => (remove_dirty_data df).cols.count c == 1) = true
      · rw [if_pos hchk] at hbody
        have ht := (Except.ok.inj hbody).symm
        subst ht
        constructor
        · intro r hr c hc i hidx
          have hmem := List.mem_filter.mp hr
          have hcomp := List.all_eq_true.mp hmem.2 c hc
          rw [hidx] at hcomp
          exact of_decide_eq_true hcomp
        · show (List.filter (fun r => rowComplete (remove_dirty_data df).cols r)
            (List.map (fun r => List.zipWith cleanCell (remove_dirty_data df).cols r)
              (remove_dirty_data df).rows)).Sublist _
          rw [remove_dirty_cols]
          exact (List.filter_sublist _).trans ((remove_dirty_sublist df).map _)
      · rw [if_neg hchk] at hbody
        exact absurd hbody (by simp)

def dfRowW : RawDF :=
  ⟨["title", "price", "rating", "colors", "size", "gender"],
    [[some "Valid Product", some "$100.50", some "4.8 / 5", some "3 Colors",
      some "Size: L", some "Gender: Male"]]⟩

/-- Witness for C3 at a concrete one-row frame: the transformed row is
non-null in the `size` column (index 4). -/
theorem C3_transform_invariants_witness :
    ([TVal.vstr "Valid Product", TVal.vnum (100.5 * CURRENCY_CONVERSION),
      TVal.vnum (4.8 : ℚ), TVal.vint 3, TVal.vstr "L",
      TVal.vstr "Male"].getD 4 TVal.vnull ≠ TVal.vnull) := by
  have heval : transform_data dfRowW =
      ⟨["title", "price", "rating", "colors", "size", "gender"],
        [[TVal.vstr "Valid Product", TVal.vnum (100.5 * CURRENCY_CONVERSION),
          TVal.vnum (4.8 : ℚ), TVal.vint 3, TVal.vstr "L", TVal.vstr "Male"]]⟩ := by
    simp +decide [transform_data, transformBody, remove_dirty_data, DIRTY_PATTERNS,
      dfRowW, titlePatterns, ratingPatterns, pricePatterns, dirtyKeep, getCell,
      colIdx?, REQUIRED_COLUMNS, rowComplete, cleanCell, clean_price, clean_rating,
      clean_colors, clean_size, clean_gender, commaRule, stripNonNumeric,
      parsePyFloat, keepPriceChar, commaToDot, grabNumToken, findNumToken,
      firstDigitRun, stripLabelCI, matchesLabelCI]
    norm_num [show parseDigitsVal ['1', '0', '0'] = 100 from by decide,
      show parseDigitsVal ['5', '0'] = 50 from by decide,
      show parseDigitsVal ['4'] = 4 from by decide,
      show parseDigitsVal ['8'] = 8 from by decide,
      show parseDigitsVal ['3'] = 3 from by decide, CURRENCY_CONVERSION]
  have h := (C3_transform_invariants dfRowW).1
  rw [heval] at h
  exact h _ (by simp) "size" (by decide) 4 (by decide)

theorem dirtyKeep_false_iff (cols : List String) (patterns : List String)
    (col : String) (row : List RawCell) :
    dirtyKeep cols patterns col row = false ↔
      getCell cols row col = none ∨
        ∃ v, getCell cols row col = some v ∧ v ∈ patterns := by
  unfold dirtyKeep
  cases h : getCell cols row col with
  | none => simp [h]
  | some v => simp [h]

/-- C5: `remove_dirty_data` is exactly the order-preserving filter that
drops a row iff, for some configured column (title, rating, price) present
in the frame, the row's raw value is null or one of the column's
placeholder strings; an empty frame passes through unchanged. -/
theorem C5_dirty_filter (df : RawDF) :
    remove_dirty_data df =
      ⟨df.cols, df.rows.filter (fun r => !(isDirtyRow df.cols r))⟩ ∧
    (∀ r, isDirtyRow df.cols r = true ↔
      ∃ cp ∈ DIRTY_PATTERNS, cp.1 ∈ df.cols ∧
        (getCell df.cols r cp.1 = none ∨
          ∃ v, getCell df.cols r cp.1 = some v ∧ v ∈ cp.2)) ∧
    (df.rows = [] → remove_dirty_data df = df) := by
  refine ⟨remove_dirty_eq df, ?_, ?_⟩
  · intro r
    unfold isDirtyRow
    rw [List.any_eq_true]
    constructor
    · rintro ⟨cp, hmem, hcp⟩
      have h1 : df.cols.contains cp.1 = true := by
        cases hc : df.cols.contains cp.1 with
        | true => rfl
        | false =>
          rw [hc] at hcp
          exact absurd hcp (by simp)
      have h2 : dirtyKeep df.cols cp.2 cp.1 r = false := by
        cases hd : dirtyKeep df.cols cp.2 cp.1 r with
        | false => rfl
        | true =>
          rw [h1, hd] at hcp
          exact absurd hcp (by simp)
      exact ⟨cp, hmem, by simpa using h1, (dirtyKeep_false_iff _ _ _ _).mp h2⟩
    · rintro ⟨cp, hmem, hcol, hcond⟩
      refine ⟨cp, hmem, ?_⟩
      have hk : dirtyKeep df.cols cp.2 cp.1 r = false :=
        (dirtyKeep_false_iff _ _ _ _).mpr hcond
      have hcont : df.cols.contains cp.1 = true := by simpa using hcol
      rw [hcont, hk]
      rfl
  · intro h
    obtain ⟨cols, rows⟩ := df
    simp only at h
    subst h
    rw [remove_dirty_eq]
    rfl

def dfDirtyW : RawDF :=
  ⟨["title"], [[some "Unknown Product"], [some "N/A"], [some "Valid Product"]]⟩

/-- Witness for C5: the spec's three-row example keeps exactly the
`"Valid Product"` row; a null-title row is dirty; the empty frame is a
no-op. -/
theorem C5_dirty_filter_witness :
    remove_dirty_data dfDirtyW = ⟨["title"], [[some "Valid Product"]]⟩ ∧
    isDirtyRow dfDirtyW.cols [(none : RawCell)] = true ∧
    remove_dirty_data dfEmptyW = dfEmptyW := by
  refine ⟨?_, ?_, ?_⟩
  · rw [(C5_dirty_filter dfDirtyW).1]
    decide
  · exact ((C5_dirty_filter dfDirtyW).2.1 [(none : RawCell)]).mpr
      ⟨("title", titlePatterns), by decide, by decide, Or.inl (by decide)⟩
  · exact (C5_dirty_filter dfEmptyW).2.2 rfl

/-- C9: every cleaner maps a null input to absent, and unparseable input
(digit-free text for the numeric cleaners, blank text for all of them)
always yields absent.  In the embedding each cleaner is a total function
into `Option`, which is the "returns a typed value or the absent marker
and never raises" contract. -/
theorem C9_cleaners_total :
    (clean_price none = none ∧ clean_rating none = none ∧
      clean_colors none = none ∧ clean_size none = none ∧
      clean_gender none = none) ∧
    (∀ s : String, (∀ c ∈ s.toList, c.isDigit = false) →
      clean_price (some s) = none ∧ clean_rating (some s) = none ∧
        clean_colors (some s) = none) ∧
    (∀ s : String, pyStrip s = "" →
      clean_price (some s) = none ∧ clean_rating (some s) = none ∧
        clean_size (some s) = none ∧ clean_gender (some s) = none) := by
  refine ⟨⟨rfl, rfl, rfl, rfl, rfl⟩, ?_, ?_⟩
  · intro s h
    exact ⟨clean_price_no_digit h, clean_rating_no_digit h, clean_colors_no_digit h⟩
  · intro s h
    exact ⟨by simp [clean_price, h], by simp [clean_rating, h],
      by simp [clean_size, h], by simp [clean_gender, h]⟩

/-- Witness for C9: the placeholder `"N/A"` and the blank `" "` map to
absent under the respective cleaners. -/
theorem C9_cleaners_total_witness :
    clean_price (some "N/A") = none ∧ clean_rating (some "N/A") = none ∧
    clean_colors (some "N/A") = none ∧ clean_size (some " ") = none ∧
    clean_gender (some " ") = none :=
  ⟨(C9_cleaners_total.2.1 "N/A" (by decide)).1,
    (C9_cleaners_total.2.1 "N/A" (by decide)).2.1,
    (C9_cleaners_total.2.1 "N/A" (by decide)).2.2,
    (C9_cleaners_total.2.2 " " (by decide)).2.2.1,
    (C9_cleaners_total.2.2 " " (by decide)).2.2.2⟩

/-! ## Claim C4: the price cleaner -/

theorem map_commaToDot_digits {l : List Char} (h : AllDigit l) :
    l.map commaToDot = l := by
  induction l with
  | nil => rfl
  | cons c rest ih =>
    have hc : commaToDot c = c := by
      unfold commaToDot
      rw [digit_beq_comma_false (h c (by simp))]
      simp
    rw [List.map_cons, hc, ih fun x hx => h x (by simp [hx])]

/-- C4: `clean_price` strips to digits/dots/commas, applies the comma
rule, parses, and multiplies by 16000; it is absent exactly on null/blank
input or a parse failure.  The three price shapes `$D.DD`, `D,DD` and
`D,DDD.DD` (arbitrary digit groups) evaluate to the numeric value times
`CURRENCY_CONVERSION`, and `"N/A"`, `""`, null and non-numeric text are
absent. -/
theorem C4_clean_price :
    (clean_price none = none) ∧
    (∀ s : String, clean_price (some s) = none ↔
      pyStrip s = "" ∨ parsePyFloat (commaRule (stripNonNumeric s)) = none) ∧
    (∀ (s : String) (q : ℚ), ¬ pyStrip s = "" →
      parsePyFloat (commaRule (stripNonNumeric s)) = some q →
      clean_price (some s) = some (q * CURRENCY_CONVERSION)) ∧
    (∀ a b : List Char, AllDigit a → AllDigit b → a ≠ [] → b ≠ [] →
      clean_price (some (String.mk ('$' :: (a ++ '.' :: b)))) =
        some (((parseDigitsVal a : ℚ) + (parseDigitsVal b : ℚ) / 10 ^ b.length) *
          CURRENCY_CONVERSION)) ∧
    (∀ a b : List Char, AllDigit a → AllDigit b → a ≠ [] → b ≠ [] →
      clean_price (some (String.mk (a ++ ',' :: b))) =
        some (((parseDigitsVal a : ℚ) + (parseDigitsVal b : ℚ) / 10 ^ b.length) *
          CURRENCY_CONVERSION)) ∧
    (∀ a b c : List Char, AllDigit a → AllDigit b → AllDigit c →
      a ≠ [] → b ≠ [] → c ≠ [] →
      clean_price (some (String.mk (a ++ ',' :: (b ++ '.' :: c)))) =
        some (((parseDigitsVal (a ++ b) : ℚ) + (parseDigitsVal c : ℚ) / 10 ^ c.length) *
          CURRENCY_CONVERSION)) ∧
    (clean_price (some "N/A") = none ∧ clean_price (some "") = none ∧
      clean_price (some "abc") = none) := by
  refine ⟨rfl, clean_price_none_iff, fun s q => clean_price_parse, ?_, ?_, ?_,
    by decide, by decide, by decide⟩
  · -- the shape $D.DD
    intro a b ha hb ha0 hb0
    have hnl : NumLit (a ++ '.' :: b) := Or.inr ⟨a, b, rfl, ha, hb, ha0, hb0⟩
    have hstrip : stripNonNumeric (String.mk ('$' :: (a ++ '.' :: b))) =
        String.mk (a ++ '.' :: b) := by
      unfold stripNonNumeric
      show String.mk (List.filter keepPriceChar ('$' :: (a ++ '.' :: b))) = _
      rw [List.filter_cons]
      simp only [show keepPriceChar '$' = false from rfl, Bool.false_eq_true, if_false]
      rw [List.filter_eq_self.mpr hnl.keep]
    apply clean_price_parse
    · rw [pyStrip_eq_self (fun c hc => by
        rcases List.mem_cons.mp hc with hc | hc
        · subst hc
          decide
        · exact hnl.no_space c hc)]
      exact stringMk_ne_empty (by simp)
    · rw [hstrip, commaRule_no_comma hnl.no_comma,
        parsePyFloat_digits_dot ha hb (Or.inl ha0)]
  · -- the shape D,DD (comma as decimal separator)
    intro a b ha hb ha0 hb0
    have hkeep : ∀ x ∈ a ++ ',' :: b, keepPriceChar x = true := by
      intro x hx
      rcases List.mem_append.mp hx with hx | hx
      · simp [keepPriceChar, ha x hx]
      · rcases List.mem_cons.mp hx with hx | hx
        · subst hx
          decide
        · simp [keepPriceChar, hb x hx]
    have hnsp : ∀ x ∈ a ++ ',' :: b, pyIsSpace x = false := by
      intro x hx
      rcases List.mem_append.mp hx with hx | hx
      · exact digit_not_space (ha x hx)
      · rcases List.mem_cons.mp hx with hx | hx
        · subst hx
          decide
        · exact digit_not_space (hb x hx)
    have hdotnm : ('.' : Char) ∉ a ++ ',' :: b := by
      intro hm
      rcases List.mem_append.mp hm with hm | hm
      · exact absurd (ha '.' hm) (by decide)
      · rcases List.mem_cons.mp hm with hm | hm
        · exact absurd hm (by decide)
        · exact absurd (hb '.' hm) (by decide)
    have hcr : commaRule (String.mk (a ++ ',' :: b)) = String.mk (a ++ '.' :: b) := by
      unfold commaRule
      show String.mk (List.filter _
        (if (a ++ ',' :: b).contains ',' && !((a ++ ',' :: b).contains '.') then
          (a ++ ',' :: b).map commaToDot else a ++ ',' :: b)) = _
      rw [if_pos (by simp [hdotnm])]
      rw [List.map_append, map_commaToDot_digits ha, List.map_cons,
        show commaToDot ',' = '.' from rfl, map_commaToDot_digits hb]
      rw [List.filter_eq_self.mpr (fun x hx => by
        rcases List.mem_append.mp hx with hx | hx
        · simp [bne, digit_beq_comma_false (ha x hx)]
        · rcases List.mem_cons.mp hx with hx | hx
          · subst hx
            decide
          · simp [bne, digit_beq_comma_false (hb x hx)])]
    apply clean_price_parse
    · rw [pyStrip_eq_self hnsp]
      exact stringMk_ne_empty (by simp)
    · rw [stripNonNumeric_keep hkeep, hcr, parsePyFloat_digits_dot ha hb (Or.inl ha0)]
  · -- the shape D,DDD.DD (comma as thousands separator)
    intro a b c ha hb hc ha0 hb0 hc0
    have habd : AllDigit (a ++ b) := fun x hx => by
      rcases List.mem_append.mp hx with hx | hx
      · exact ha x hx
      · exact hb x hx
    have hnlr : NumLit (a ++ b ++ '.' :: c) := Or.inr
      ⟨a ++ b, c, rfl, habd, hc, by simp [ha0], hc0⟩
    have hkeep : ∀ x ∈ a ++ ',' :: (b ++ '.' :: c), keepPriceChar x = true := by
      intro x hx
      rcases List.mem_append.mp hx with hx | hx
      · simp [keepPriceChar, ha x hx]
      · rcases List.mem_cons.mp hx with hx | hx
        · subst hx
          decide
        · exact hnlr.keep x (by
            rcases List.mem_append.mp hx with hx | hx
            · exact List.mem_append.mpr (Or.inl (List.mem_append.mpr (Or.inr hx)))
            · exact List.mem_append.mpr (Or.inr hx))
    have hnsp : ∀ x ∈ a ++ ',' :: (b ++ '.' :: c), pyIsSpace x = false := by
      intro x hx
      rcases List.mem_append.mp hx with hx | hx
      · exact digit_not_space (ha x hx)
      · rcases List.mem_cons.mp hx with hx | hx
        · subst hx
          decide
        · exact hnlr.no_space x (by
            rcases List.mem_append.mp hx with hx | hx
            · exact List.mem_append.mpr (Or.inl (List.mem_append.mpr (Or.inr hx)))
            · exact List.mem_append.mpr (Or.inr hx))
    have hdotmem : ('.' : Char) ∈ a ++ ',' :: (b ++ '.' :: c) := by simp
    have hcr : commaRule (String.mk (a ++ ',' :: (b ++ '.' :: c))) =
        String.mk (a ++ b ++ '.' :: c) := by
      unfold commaRule
      show String.mk (List.filter _
        (if (a ++ ',' :: (b ++ '.' :: c)).contains ',' &&
            !((a ++ ',' :: (b ++ '.' :: c)).contains '.') then
          (a ++ ',' :: (b ++ '.' :: c)).map commaToDot
        else a ++ ',' :: (b ++ '.' :: c))) = _
      rw [if_neg (by simp [hdotmem])]
      rw [List.filter_append, List.filter_cons]
      simp only [show ((',' : Char) != ',') = false from rfl, Bool.false_eq_true, if_false]
      rw [List.filter_eq_self.mpr (fun x hx => by simp [bne, digit_beq_comma_false (ha x hx)]),
        List.filter_eq_self.mpr (fun x hx => by
          have hx' : x ∈ (a ++ b) ++ '.' :: c := by
            rcases List.mem_append.mp hx with hx | hx
            · exact List.mem_append.mpr (Or.inl (List.mem_append.mpr (Or.inr hx)))
            · exact List.mem_append.mpr (Or.inr hx)
          simp [bne, hnlr.no_comma x hx'])]
      rw [List.append_assoc]
    apply clean_price_parse
    · rw [pyStrip_eq_self hnsp]
      exact stringMk_ne_empty (by simp)
    · rw [stripNonNumeric_keep hkeep, hcr,
        show a ++ b ++ '.' :: c = (a ++ b) ++ '.' :: c from rfl,
        parsePyFloat_digits_dot habd hc (Or.inl (by simp [ha0]))]

/-- Witness for C4 at concrete digit groups: `$100.50`, `100,50` and
`1,000.50` all clean to `100.5 × 16000 = 1608000` (and `1000.5 × 16000`
for the third). -/
theorem C4_clean_price_witness :
    clean_price (some (String.mk ('$' :: (['1', '0', '0'] ++ '.' :: ['5', '0'])))) =
      some (((parseDigitsVal ['1', '0', '0'] : ℚ) +
        (parseDigitsVal ['5', '0'] : ℚ) / 10 ^ (['5', '0'] : List Char).length) *
        CURRENCY_CONVERSION) ∧
    clean_price (some (String.mk (['1', '0', '0'] ++ ',' :: ['5', '0']))) =
      some (((parseDigitsVal ['1', '0', '0'] : ℚ) +
        (parseDigitsVal ['5', '0'] : ℚ) / 10 ^ (['5', '0'] : List Char).length) *
        CURRENCY_CONVERSION) ∧
    clean_price (some (String.mk (['1'] ++ ',' :: (['0', '0', '0'] ++ '.' :: ['5', '0'])))) =
      some (((parseDigitsVal (['1'] ++ ['0', '0', '0']) : ℚ) +
        (parseDigitsVal ['5', '0'] : ℚ) / 10 ^ (['5', '0'] : List Char).length) *
        CURRENCY_CONVERSION) :=
  ⟨C4_clean_price.2.2.2.1 ['1', '0', '0'] ['5', '0']
      (by unfold AllDigit; decide) (by unfold AllDigit; decide) (by decide) (by decide),
    C4_clean_price.2.2.2.2.1 ['1', '0', '0'] ['5', '0']
      (by unfold AllDigit; decide) (by unfold AllDigit; decide) (by decide) (by decide),
    C4_clean_price.2.2.2.2.2.1 ['1'] ['0', '0', '0'] ['5', '0']
      (by unfold AllDigit; decide) (by unfold AllDigit; decide) (by unfold AllDigit; decide)
      (by decide) (by decide) (by decide)⟩


/-! ## Claims about the load stage -/

/-- C1: `load_data` raises exactly when zero destinations are enabled
(before consulting any sink — the error is a constant independent of the
frame and of every sink environment); with at least one destination
enabled it returns the Load Result, and each enabled destination's slot is
exactly the outcome of its own sink call (or the "parameters not
provided" error), regardless of the other sinks' outcomes. -/
theorem C1_load_orchestrator (cenv : CsvEnv) (senv : SheetsEnv) (penv : PgEnv)
    (df : Option TypedDF) (c s p : Bool) (cp cf : String)
    (creds : Option String) (sid : Option String) (sn : String)
    (pp : Option PgParams) (pt : String) :
    ((c || s || p) = false →
      load_data cenv senv penv df c s p cp cf creds sid sn pp pt =
        Except.error "At least one storage destination must be selected") ∧
    ((c || s || p) = true →
      ∃ r t, load_data cenv senv penv df c s p cp cf creds sid sn pp pt =
          Except.ok (r, t) ∧
        (c = true →
          (∀ pth tr, save_to_csv cenv df cp cf = (Except.ok pth, tr) →
            r.csv_path = some pth ∧ r.csv_error = none) ∧
          (∀ e tr, save_to_csv cenv df cp cf = (Except.error e, tr) →
            r.csv_path = none ∧ r.csv_error = some e)) ∧
        (s = true →
          ((creds = none ∨ creds = some "") →
            r.sheets_id = none ∧
              r.sheets_error = some "Credentials path not provided") ∧
          (∀ cps, creds = some cps → ¬ cps = "" →
            (∀ i tr, save_to_google_sheets senv df cps sid = (Except.ok i, tr) →
              r.sheets_id = some i ∧ r.sheets_error = none) ∧
            (∀ e tr, save_to_google_sheets senv df cps sid = (Except.error e, tr) →
              r.sheets_id = none ∧ r.sheets_error = some e))) ∧
        (p = true →
          ((pp = none ∨ pp = some []) →
            r.postgres_success = false ∧
              r.postgres_error = some "Connection parameters not provided") ∧
          (∀ ps, pp = some ps → ¬ ps.isEmpty = true →
            (∀ b tr, save_to_postgresql penv df pt ps = (Except.ok b, tr) →
              r.postgres_success = b ∧ r.postgres_error = none) ∧
            (∀ e tr, save_to_postgresql penv df pt ps = (Except.error e, tr) →
              r.postgres_success = false ∧ r.postgres_error = some e)))) := by
  constructor
  · intro h
    unfold load_data
    rw [if_pos (by simp [h])]
  · intro h
    have hL : load_data cenv senv penv df c s p cp cf creds sid sn pp pt =
        Except.ok
          ({ csv_path := (csvSlot cenv df c cp cf).1,
             sheets_id := (sheetsSlot senv df s creds sid).1,
             postgres_success := (pgSlot penv df p pp pt).1,
             csv_error := (csvSlot cenv df c cp cf).2.1,
             sheets_error := (sheetsSlot senv df s creds sid).2.1,
             postgres_error := (pgSlot penv df p pp pt).2.1 },
           (csvSlot cenv df c cp cf).2.2 ++ (sheetsSlot senv df s creds sid).2.2 ++
             (pgSlot penv df p pp pt).2.2) := by
      unfold load_data
      rw [if_neg (by simp [h])]
    refine ⟨_, _, hL, ?_, ?_, ?_⟩
    · intro hc
      subst hc
      constructor
      · intro pth tr hsv
        simp [csvSlot, hsv]
      · intro e tr hsv
        simp [csvSlot, hsv]
    · intro hs
      subst hs
      constructor
      · intro hcr
        rcases hcr with rfl | rfl <;> simp [sheetsSlot]
      · intro cps hcps hne
        subst hcps
        constructor
        · intro i tr hsv
          simp [sheetsSlot, hne, hsv]
        · intro e tr hsv
          simp [sheetsSlot, hne, hsv]
    · intro hp
      subst hp
      constructor
      · intro hcr
        rcases hcr with rfl | rfl <;> simp [pgSlot]
      · intro ps hps hne
        subst hps
        constructor
        · intro b tr hsv
          simp [pgSlot, hne, hsv]
        · intro e tr hsv
          simp [pgSlot, hne, hsv]

def dfLoadW : TypedDF := ⟨["title"], [[TVal.vstr "x"]]⟩

def cenvW : CsvEnv := ⟨true, "disk full"⟩

def senvFailW : SheetsEnv := ⟨true, false, true, "NEWID", true, true, "auth failed"⟩

def penvW : PgEnv := ⟨true, true, true, "pg error"⟩

def ppW : PgParams :=
  [("host", "h"), ("database", "d"), ("user", "u"), ("password", "w")]

/-- Witness for C1: all three destinations enabled, the CSV and PostgreSQL
sinks succeeding while the spreadsheet sink raises — the call returns the
Load Result with a populated file path, a populated spreadsheet error, and
a true database flag; no exception escapes. -/
theorem C1_load_orchestrator_witness :
    ∃ r t, load_data cenvW senvFailW penvW (some dfLoadW) true true true
        "./data" "products.csv" (some "creds.json") none "Products"
        (some ppW) "products" = Except.ok (r, t) ∧
      r.csv_path = some "./data/products.csv" ∧ r.csv_error = none ∧
      r.sheets_id = none ∧ r.sheets_error = some "auth failed" ∧
      r.postgres_success = true ∧ r.postgres_error = none := by
  obtain ⟨r, t, hL, hcsv, hsh, hpg⟩ :=
    (C1_load_orchestrator cenvW senvFailW penvW (some dfLoadW) true true true
      "./data" "products.csv" (some "creds.json") none "Products"
      (some ppW) "products").2 (by decide)
  have h1 := (hcsv rfl).1 "./data/products.csv"
    [ExtCall.fsWrite "./data/products.csv"] rfl
  have h2 := ((hsh rfl).2 "creds.json" rfl (by decide)).2 "auth failed"
    [ExtCall.sheetsAuth] rfl
  have h3 := ((hpg rfl).2 ppW rfl (by decide)).1 true
    [ExtCall.pgConnect, ExtCall.pgWrite "products"] rfl
  exact ⟨r, t, hL, h1.1, h1.2, h2.1, h2.2, h3.1, h3.2⟩

/-- C6: each of the three sink save operations rejects an empty or absent
frame with an immediate `LoadError`, attempting no external operation (the
trace is empty) — never a silent no-op. -/
theorem C6_sink_empty_validation (cenv : CsvEnv) (senv : SheetsEnv)
    (penv : PgEnv) (df : Option TypedDF) (pathd fn credp : String)
    (sid : Option String) (snm : String) (cr : Bool) (tbl : String)
    (ps : PgParams) (sch : String) (h : dfEmptyOrNone df = true) :
    save_to_csv cenv df pathd fn =
      (Except.error "Invalid data for CSV export: DataFrame is empty or None", []) ∧
    save_to_google_sheets senv df credp sid snm cr =
      (Except.error "Invalid data for Google Sheets: DataFrame is empty or None", []) ∧
    save_to_postgresql penv df tbl ps sch =
      (Except.error "Invalid data or parameters: DataFrame is empty or None", []) := by
  refine ⟨?_, ?_, ?_⟩
  · unfold save_to_csv
    rw [if_pos h]
  · unfold save_to_google_sheets
    rw [if_pos h]
  · unfold save_to_postgresql
    rw [if_pos h]

/-- Witness for C6: an absent frame and a zero-row frame are both rejected
by every sink with an empty trace. -/
theorem C6_sink_empty_validation_witness :
    save_to_csv cenvW none "./data" "f.csv" =
      (Except.error "Invalid data for CSV export: DataFrame is empty or None", []) ∧
    save_to_google_sheets senvFailW none "c.json" none "Products" true =
      (Except.error "Invalid data for Google Sheets: DataFrame is empty or None", []) ∧
    save_to_postgresql penvW (some ⟨["title"], []⟩) "products" ppW "public" =
      (Except.error "Invalid data or parameters: DataFrame is empty or None", []) :=
  ⟨(C6_sink_empty_validation cenvW senvFailW penvW none "./data" "f.csv" "c.json"
      none "Products" true "products" ppW "public" rfl).1,
    (C6_sink_empty_validation cenvW senvFailW penvW none "./data" "f.csv" "c.json"
      none "Products" true "products" ppW "public" rfl).2.1,
    (C6_sink_empty_validation cenvW senvFailW penvW (some ⟨["title"], []⟩) "./data"
      "f.csv" "c.json" none "Products" true "products" ppW "public" rfl).2.2⟩

theorem pg_ok_true {penv : PgEnv} {df : Option TypedDF} {tbl : String}
    {ps : PgParams} {sch : String} {b : Bool} {t : List ExtCall}
    (h : save_to_postgresql penv df tbl ps sch = (Except.ok b, t)) : b = true := by
  unfold save_to_postgresql at h
  repeat' split at h
  all_goals simp_all

theorem csvSlot_cases (cenv : CsvEnv) (df : Option TypedDF) (b : Bool)
    (cp cf : String) :
    (b = true →
      (∃ v, (csvSlot cenv df b cp cf).1 = some v ∧
        (csvSlot cenv df b cp cf).2.1 = none) ∨
      ((csvSlot cenv df b cp cf).1 = none ∧
        ∃ e, (csvSlot cenv df b cp cf).2.1 = some e)) ∧
    (b = false →
      (csvSlot cenv df b cp cf).1 = none ∧ (csvSlot cenv df b cp cf).2.1 = none) := by
  constructor
  · intro hb
    subst hb
    unfold csvSlot
    rcases hsv : save_to_csv cenv df cp cf with ⟨rc, tc⟩
    cases rc with
    | ok v => exact Or.inl ⟨v, by simp [hsv]⟩
    | error e => exact Or.inr ⟨by simp [hsv], e, by simp [hsv]⟩
  · intro hb
    subst hb
    simp [csvSlot]

theorem sheetsSlot_cases (senv : SheetsEnv) (df : Option TypedDF) (b : Bool)
    (creds : Option String) (sid : Option String) :
    (b = true →
      (∃ v, (sheetsSlot senv df b creds sid).1 = some v ∧
        (sheetsSlot senv df b creds sid).2.1 = none) ∨
      ((sheetsSlot senv df b creds sid).1 = none ∧
        ∃ e, (sheetsSlot senv df b creds sid).2.1 = some e)) ∧
    (b = false →
      (sheetsSlot senv df b creds sid).1 = none ∧
        (sheetsSlot senv df b creds sid).2.1 = none) := by
  constructor
  · intro hb
    subst hb
    unfold sheetsSlot
    rcases creds with _ | cps
    · exact Or.inr ⟨by simp, "Credentials path not provided", by simp⟩
    · by_cases hcp : cps = ""
      · exact Or.inr ⟨by simp [hcp], "Credentials path not provided", by simp [hcp]⟩
      · rcases hsv : save_to_google_sheets senv df cps sid with ⟨rc, tc⟩
        cases rc with
        | ok v => exact Or.inl ⟨v, by simp [hcp, hsv]⟩
        | error e => exact Or.inr ⟨by simp [hcp, hsv], e, by simp [hcp, hsv]⟩
  · intro hb
    subst hb
    simp [sheetsSlot]

theorem pgSlot_cases (penv : PgEnv) (df : Option TypedDF) (b : Bool)
    (pp : Option PgParams) (tbl : String) :
    (b = true →
      ((pgSlot penv df b pp tbl).1 = true ∧ (pgSlot penv df b pp tbl).2.1 = none) ∨
      ((pgSlot penv df b pp tbl).1 = false ∧
        ∃ e, (pgSlot penv df b pp tbl).2.1 = some e)) ∧
    (b = false →
      (pgSlot penv df b pp tbl).1 = false ∧ (pgSlot penv df b pp tbl).2.1 = none) := by
  constructor
  · intro hb
    subst hb
    unfold pgSlot
    rcases pp with _ | ps
    · exact Or.inr ⟨by simp, "Connection parameters not provided", by simp⟩
    · by_cases hps : ps.isEmpty = true
      · exact Or.inr ⟨by simp [hps], "Connection parameters not provided", by simp [hps]⟩
      · rcases hsv : save_to_postgresql penv df tbl ps with ⟨rc, tc⟩
        cases rc with
        | ok v =>
          have hv : v = true := pg_ok_true hsv
          subst hv
          exact Or.inl ⟨by simp [hps, hsv], by simp [hps, hsv]⟩
        | error e => exact Or.inr ⟨by simp [hps, hsv], e, by simp [hps, hsv]⟩
  · intro hb
    subst hb
    simp [pgSlot]

/-- C7: in a returned Load Result, every attempted destination has exactly
one of its success value (file path / sheet id / true flag) and its error
message populated, and every destination that was not requested has both
absent (the `None`/`None`/`False` initial values). -/
theorem C7_result_slots (cenv : CsvEnv) (senv : SheetsEnv) (penv : PgEnv)
    (df : Option TypedDF) (c s p : Bool) (cp cf : String)
    (creds : Option String) (sid : Option String) (sn : String)
    (pp : Option PgParams) (pt : String) (r : LoadResults) (t : List ExtCall)
    (h : load_data cenv senv penv df c s p cp cf creds sid sn pp pt =
      Except.ok (r, t)) :
    ((c = true → (∃ v, r.csv_path = some v ∧ r.csv_error = none) ∨
        (r.csv_path = none ∧ ∃ e, r.csv_error = some e)) ∧
      (c = false → r.csv_path = none ∧ r.csv_error = none)) ∧
    ((s = true → (∃ v, r.sheets_id = some v ∧ r.sheets_error = none) ∨
        (r.sheets_id = none ∧ ∃ e, r.sheets_error = some e)) ∧
      (s = false → r.sheets_id = none ∧ r.sheets_error = none)) ∧
    ((p = true → (r.postgres_success = true ∧ r.postgres_error = none) ∨
        (r.postgres_success = false ∧ ∃ e, r.postgres_error = some e)) ∧
      (p = false → r.postgres_success = false ∧ r.postgres_error = none)) := by
  unfold load_data at h
  by_cases hflag : (!(c || s || p)) = true
  · rw [if_pos hflag] at h
    exact absurd h (by simp)
  · rw [if_neg hflag] at h
    have hpair := Except.ok.inj h
    rw [Prod.mk.injEq] at hpair
    obtain ⟨h1, h2⟩ := hpair
    subst h1
    exact ⟨csvSlot_cases cenv df c cp cf, sheetsSlot_cases senv df s creds sid,
      pgSlot_cases penv df p pp pt⟩

/-- Witness for C7 at the concrete mixed-outcome run of the C1 witness
environment: CSV succeeded (path populated, error absent), Sheets failed
(id absent, error populated), PostgreSQL succeeded (flag true, error
absent). -/
theorem C7_result_slots_witness :
    ((∃ v, (some "./data/products.csv" : Option String) = some v ∧
        (none : Option String) = none) ∨
      ((some "./data/products.csv" : Option String) = none ∧
        ∃ e, (none : Option String) = some e)) ∧
    ((∃ v, (none : Option String) = some v ∧
        (some "auth failed" : Option String) = none) ∨
      ((none : Option String) = none ∧
        ∃ e, (some "auth failed" : Option String) = some e)) := by
  have h := C7_result_slots cenvW senvFailW penvW (some dfLoadW) true true true
    "./data" "products.csv" (some "creds.json") none "Products" (some ppW)
    "products"
    ⟨some "./data/products.csv", none, true, none, some "auth failed", none⟩
    ([ExtCall.fsWrite "./data/products.csv"] ++ [ExtCall.sheetsAuth] ++
      [ExtCall.pgConnect, ExtCall.pgWrite "products"])
    rfl
  exact ⟨h.1.1 rfl, h.2.1.1 rfl⟩

theorem csv_trace_no_ws {cenv : CsvEnv} {df : Option TypedDF} {pathd fn : String} :
    ∀ call ∈ (save_to_csv cenv df pathd fn).2, wsName call = none := by
  intro call hc
  unfold save_to_csv at hc
  repeat' split at hc
  all_goals simp_all [wsName]

theorem pg_trace_no_ws {penv : PgEnv} {df : Option TypedDF} {tbl : String}
    {ps : PgParams} {sch : String} :
    ∀ call ∈ (save_to_postgresql penv df tbl ps sch).2, wsName call = none := by
  intro call hc
  unfold save_to_postgresql at hc
  repeat' split at hc
  all_goals (simp_all [wsName]; try (rcases hc with rfl | rfl | rfl <;> rfl))

theorem sheets_trace_ws {senv : SheetsEnv} {df : Option TypedDF}
    {cp : String} {sid : Option String} {name : String} {cr : Bool} :
    ∀ call ∈ (save_to_google_sheets senv df cp sid name cr).2,
      ∀ m, wsName call = some m → m = name := by
  have hall : ((save_to_google_sheets senv df cp sid name cr).2.all
      (fun c => ((wsName c).getD name) == name)) = true := by
    unfold save_to_google_sheets sheetsWriteStage
    repeat' split
    all_goals simp [wsName]
  intro call hc m hm
  have h1 := List.all_eq_true.mp hall call hc
  rw [hm] at h1
  simpa using h1

/-- C10: `load_data` does not forward its `sheets_name` argument to the
spreadsheet sink — the result is literally independent of it, and every
worksheet operation in the trace targets the sink's default worksheet
name `"Products"`. -/
theorem C10_sheets_name_ignored (cenv : CsvEnv) (senv : SheetsEnv) (penv : PgEnv)
    (df : Option TypedDF) (c s p : Bool) (cp cf : String)
    (creds : Option String) (sid : Option String)
    (pp : Option PgParams) (pt : String) :
    (∀ n1 n2 : String,
      load_data cenv senv penv df c s p cp cf creds sid n1 pp pt =
        load_data cenv senv penv df c s p cp cf creds sid n2 pp pt) ∧
    (∀ (n : String) (r : LoadResults) (t : List ExtCall),
      load_data cenv senv penv df c s p cp cf creds sid n pp pt =
        Except.ok (r, t) →
      ∀ call ∈ t, ∀ m, wsName call = some m → m = "Products") := by
  constructor
  · intro n1 n2
    rfl
  · intro n r t h call hcall m hm
    unfold load_data at h
    by_cases hflag : (!(c || s || p)) = true
    · rw [if_pos hflag] at h
      exact absurd h (by simp)
    · rw [if_neg hflag] at h
      have hpair := Except.ok.inj h
      have ht : t = (csvSlot cenv df c cp cf).2.2 ++
          (sheetsSlot senv df s creds sid).2.2 ++ (pgSlot penv df p pp pt).2.2 := by
        have := congrArg Prod.snd hpair
        simpa using this.symm
      subst ht
      rcases List.mem_append.mp hcall with hcall | hcall
      · rcases List.mem_append.mp hcall with hcall | hcall
        · -- CSV trace: no worksheet operation
          have : wsName call = none := by
            unfold csvSlot at hcall
            split at hcall
            · split at hcall
              · exact csv_trace_no_ws call (by
                  rename_i heq
                  rw [show (save_to_csv cenv df cp cf).2 = _ from congrArg Prod.snd heq]
                  exact hcall)
              · exact csv_trace_no_ws call (by
                  rename_i heq
                  rw [show (save_to_csv cenv df cp cf).2 = _ from congrArg Prod.snd heq]
                  exact hcall)
            · exact absurd hcall (by simp)
          rw [this] at hm
          exact absurd hm (by simp)
        · -- Sheets trace: the sink runs with its default worksheet name
          unfold sheetsSlot at hcall
          split at hcall
          · split at hcall
            · exact absurd hcall (by simp)
            · split at hcall
              · exact absurd hcall (by simp)
              · split at hcall
                · exact sheets_trace_ws call (by
                    rename_i heq
                    rw [show (save_to_google_sheets senv df _ sid).2 = _ from
                      congrArg Prod.snd heq]
                    exact hcall) m hm
                · exact sheets_trace_ws call (by
                    rename_i heq
                    rw [show (save_to_google_sheets senv df _ sid).2 = _ from
                      congrArg Prod.snd heq]
                    exact hcall) m hm
          · exact absurd hcall (by simp)
      · -- PostgreSQL trace: no worksheet operation
        have : wsName call = none := by
          unfold pgSlot at hcall
          split at hcall
          · split at hcall
            · exact absurd hcall (by simp)
            · split at hcall
              · exact absurd hcall (by simp)
              · split at hcall
                · exact pg_trace_no_ws call (by
                    rename_i heq
                    rw [show (save_to_postgresql penv df pt _).2 = _ from
                      congrArg Prod.snd heq]
                    exact hcall)
                · exact pg_trace_no_ws call (by
                    rename_i heq
                    rw [show (save_to_postgresql penv df pt _).2 = _ from
                      congrArg Prod.snd heq]
                    exact hcall)
          · exact absurd hcall (by simp)
        rw [this] at hm
        exact absurd hm (by simp)

def senvOkW : SheetsEnv := ⟨true, true, true, "NEWID", true, true, "err"⟩

/-- Witness for C10: a concrete successful spreadsheet run invoked with
worksheet name `"MySheet"` writes to worksheet `"Products"` and returns
the same result as the run invoked with `"Products"`. -/
theorem C10_sheets_name_ignored_witness :
    load_data cenvW senvOkW penvW (some dfLoadW) false true false "./data"
        "products.csv" (some "creds.json") none "MySheet" none "products" =
      load_data cenvW senvOkW penvW (some dfLoadW) false true false "./data"
        "products.csv" (some "creds.json") none "Products" none "products" ∧
    ("Products" : String) = "Products" := by
  constructor
  · exact (C10_sheets_name_ignored cenvW senvOkW penvW (some dfLoadW) false true
      false "./data" "products.csv" (some "creds.json") none none "products").1
      "MySheet" "Products"
  · exact (C10_sheets_name_ignored cenvW senvOkW penvW (some dfLoadW) false true
      false "./data" "products.csv" (some "creds.json") none none "products").2
      "MySheet"
      ⟨none, some "NEWID", false, none, none, none⟩
      [ExtCall.sheetsAuth, ExtCall.sheetsCreate, ExtCall.wsClear "Products",
        ExtCall.wsWrite "Products", ExtCall.sheetsShare]
      rfl (ExtCall.wsWrite "Products") (by decide) "Products" rfl

/-! ## Claim C8: re-running the transform on its stringified output

The spec claims re-running the pipeline on its own (stringified) output
returns the same table.  On the code this fails: `clean_price` multiplies
by `CURRENCY_CONVERSION` on every run, so the price column is scaled by
16000 a second time.  `RendersCell`/`RendersRow` make precise what "the
typed field values re-fed as their stringified forms" means: each typed
cell is re-fed as a plain decimal rendering of its value (the shape of
Python `str` on a nonnegative float/int), each canonical string cell
re-fed verbatim. -/

/-- How the value of the typed cell `t` of column `c` is re-fed as the raw
cell `r` of the second run. -/
def RendersCell (c : String) (t : TVal) (r : RawCell) : Prop :=
  if c = "price" then
    ∃ q l, t = TVal.vnum q ∧ r = some (String.mk l) ∧ NumLit l ∧
      parsePyFloat (String.mk l) = some q
  else if c = "rating" then
    ∃ q l, t = TVal.vnum q ∧ r = some (String.mk l) ∧ NumLit l ∧
      parsePyFloat (String.mk l) = some q
  else if c = "colors" then
    ∃ n l, t = TVal.vint n ∧ r = some (String.mk l) ∧ AllDigit l ∧ l ≠ [] ∧
      ((parseDigitsVal l : Nat) : Int) = n
  else if c = "size" then
    ∃ v, t = TVal.vstr v ∧ r = some v ∧ pyStrip v = v ∧ v ≠ "" ∧
      matchesLabelCI "Size:" v.toList = false
  else if c = "gender" then
    ∃ v, t = TVal.vstr v ∧ r = some v ∧ pyStrip v = v ∧ v ≠ "" ∧
      matchesLabelCI "Gender:" v.toList = false
  else if c = "title" then
    ∃ v, t = TVal.vstr v ∧ r = some v ∧ ¬ v ∈ titlePatterns
  else
    (∃ v, t = TVal.vstr v ∧ r = some v) ∨ (t = TVal.vnull ∧ r = none)

/-- Column-wise rendering of a whole row. -/
def RendersRow : List String → List TVal → List RawCell → Prop
  | [], [], [] => True
  | c :: cs, t :: ts, r :: rs => RendersCell c t r ∧ RendersRow cs ts rs
  | _, _, _ => False

/-- The price column scaled by `CURRENCY_CONVERSION` once more; every
other cell unchanged. -/
def scaleCell (c : String) (v : TVal) : TVal :=
  if c = "price" then
    match v with
    | TVal.vnum q => TVal.vnum (q * CURRENCY_CONVERSION)
    | w => w
  else v

def scalePriceRow (cols : List String) (row : List TVal) : List TVal :=
  List.zipWith scaleCell cols row

def scalePriceDF (t : TypedDF) : TypedDF :=
  ⟨t.cols, t.rows.map (scalePriceRow t.cols)⟩

theorem renders_cleanCell {c : String} {t : TVal} {r : RawCell}
    (h : RendersCell c t r) : cleanCell c r = scaleCell c t := by
  unfold RendersCell at h
  by_cases h1 : c = "price"
  · subst h1
    rw [if_pos rfl] at h
    obtain ⟨q, l, rfl, rfl, hnl, hp⟩ := h
    show (match clean_price (some (String.mk l)) with
      | some q => TVal.vnum q
      | none => TVal.vnull) = _
    rw [clean_price_numlit hnl hp]
    rfl
  · rw [if_neg h1] at h
    by_cases h2 : c = "rating"
    · subst h2
      rw [if_pos rfl] at h
      obtain ⟨q, l, rfl, rfl, hnl, hp⟩ := h
      show (match clean_rating (some (String.mk l)) with
        | some q => TVal.vnum q
        | none => TVal.vnull) = _
      rw [clean_rating_numlit hnl, hp]
      rfl
    · rw [if_neg h2] at h
      by_cases h3 : c = "colors"
      · subst h3
        rw [if_pos rfl] at h
        obtain ⟨n, l, rfl, rfl, hd, hne, hv⟩ := h
        show (match clean_colors (some (String.mk l)) with
          | some n => TVal.vint n
          | none => TVal.vnull) = _
        rw [clean_colors_digits hd hne, hv]
        rfl
      · rw [if_neg h3] at h
        by_cases h4 : c = "size"
        · subst h4
          rw [if_pos rfl] at h
          obtain ⟨v, rfl, rfl, hs, hne, hm⟩ := h
          show (match clean_size (some v) with
            | some t => TVal.vstr t
            | none => TVal.vnull) = _
          rw [clean_size_canon hs hne hm]
          rfl
        · rw [if_neg h4] at h
          by_cases h5 : c = "gender"
          · subst h5
            rw [if_pos rfl] at h
            obtain ⟨v, rfl, rfl, hs, hne, hm⟩ := h
            show (match clean_gender (some v) with
              | some t => TVal.vstr t
              | none => TVal.vnull) = _
            rw [clean_gender_canon hs hne hm]
            rfl
          · rw [if_neg h5] at h
            have hclean : cleanCell c r = (match r with
                | some t => TVal.vstr t
                | none => TVal.vnull) := by
              unfold cleanCell
              rw [if_neg h1, if_neg h2, if_neg h3, if_neg h4, if_neg h5]
              cases r <;> rfl
            have hscale : scaleCell c t = t := by
              unfold scaleCell
              rw [if_neg h1]
            rw [hclean, hscale]
            by_cases h6 : c = "title"
            · rw [if_pos h6] at h
              obtain ⟨v, rfl, rfl, _⟩ := h
              rfl
            · rw [if_neg h6] at h
              rcases h with ⟨v, rfl, rfl⟩ | ⟨rfl, rfl⟩ <;> rfl

theorem renders_row_clean {cols : List String} {ts : List TVal}
    {rs : List RawCell} (h : RendersRow cols ts rs) :
    List.zipWith cleanCell cols rs = List.zipWith scaleCell cols ts := by
  induction cols generalizing ts rs with
  | nil =>
    cases ts with
    | nil =>
      cases rs with
      | nil => rfl
      | cons r rs => exact h.elim
    | cons t ts => exact h.elim
  | cons c cs ih =>
    cases ts with
    | nil => exact h.elim
    | cons t ts =>
      cases rs with
      | nil => exact h.elim
      | cons r rs =>
        obtain ⟨hcell, htail⟩ := h
        simp only [List.zipWith_cons_cons, renders_cleanCell hcell, ih htail]

theorem renders_row_lengths {cols : List String} {ts : List TVal}
    {rs : List RawCell} (h : RendersRow cols ts rs) :
    ts.length = cols.length ∧ rs.length = cols.length := by
  induction cols generalizing ts rs with
  | nil =>
    cases ts with
    | nil =>
      cases rs with
      | nil => exact ⟨rfl, rfl⟩
      | cons r rs => exact h.elim
    | cons t ts => exact h.elim
  | cons c cs ih =>
    cases ts with
    | nil => exact h.elim
    | cons t ts =>
      cases rs with
      | nil => exact h.elim
      | cons r rs =>
        obtain ⟨hlen1, hlen2⟩ := ih h.2
        exact ⟨by simpa using hlen1, by simpa using hlen2⟩

theorem renders_cell_at {cols : List String} {ts : List TVal}
    {rs : List RawCell} (h : RendersRow cols ts rs) :
    ∀ i, i < cols.length →
      RendersCell (cols.getD i "") (ts.getD i TVal.vnull) (rs.getD i none) := by
  induction cols generalizing ts rs with
  | nil => intro i hi; exact absurd hi (by simp)
  | cons c cs ih =>
    cases ts with
    | nil => exact h.elim
    | cons t ts =>
      cases rs with
      | nil => exact h.elim
      | cons r rs =>
        intro i hi
        cases i with
        | zero => exact h.1
        | succ j => exact ih h.2 j (by simpa using hi)

theorem forall₂_mem_right {α β : Type} {R : α → β → Prop} {l1 : List α}
    {l2 : List β} (h : List.Forall₂ R l1 l2) {b : β} (hb : b ∈ l2) :
    ∃ a ∈ l1, R a b := by
  induction h with
  | nil => exact absurd hb (by simp)
  | cons hab htail ih =>
    rcases List.mem_cons.mp hb with rfl | hb2
    · exact ⟨_, by simp, hab⟩
    · obtain ⟨a, ha, hR⟩ := ih hb2
      exact ⟨a, by simp [ha], hR⟩

theorem forall₂_mem_left {α β : Type} {R : α → β → Prop} {l1 : List α}
    {l2 : List β} (h : List.Forall₂ R l1 l2) {a : α} (ha : a ∈ l1) :
    ∃ b ∈ l2, R a b := by
  induction h with
  | nil => exact absurd ha (by simp)
  | cons hab htail ih =>
    rcases List.mem_cons.mp ha with rfl | ha2
    · exact ⟨_, by simp, hab⟩
    · obtain ⟨b, hb, hR⟩ := ih ha2
      exact ⟨b, by simp [hb], hR⟩

theorem numlit_ne_str {l : List Char} (h : NumLit l) (p : String) (ch : Char)
    (hch : ch ∈ p.toList) (hd : ch.isDigit = false) (hdot : ¬ ch = '.') :
    ¬ String.mk l = p := by
  intro he
  have hl : l = p.toList := by
    have h2 := congrArg String.toList he
    simpa using h2
  rcases h.digit_or_dot ch (by rw [hl]; exact hch) with hx | hx
  · rw [hx] at hd
    exact absurd hd (by simp)
  · exact hdot hx

theorem numlit_not_mem_rating {l : List Char} (h : NumLit l) :
    ¬ String.mk l ∈ ratingPatterns := by
  intro hm
  simp only [ratingPatterns, List.mem_cons, List.not_mem_nil, or_false] at hm
  rcases hm with hm | hm | hm | hm
  · exact numlit_ne_str h "Invalid Rating / 5" 'I' (by decide) (by decide) (by decide) hm
  · exact numlit_ne_str h "Not Rated" 'N' (by decide) (by decide) (by decide) hm
  · exact numlit_ne_str h "N/A" 'N' (by decide) (by decide) (by decide) hm
  · exact stringMk_ne_empty h.ne_nil hm

theorem numlit_not_mem_price {l : List Char} (h : NumLit l) :
    ¬ String.mk l ∈ pricePatterns := by
  intro hm
  simp only [pricePatterns, List.mem_cons, List.not_mem_nil, or_false] at hm
  rcases hm with hm | hm | hm
  · exact numlit_ne_str h "Price Unavailable" 'P' (by decide) (by decide) (by decide) hm
  · exact numlit_ne_str h "N/A" 'N' (by decide) (by decide) (by decide) hm
  · exact stringMk_ne_empty h.ne_nil hm

theorem renders_not_dirty {cols : List String} {ts : List TVal}
    {rs : List RawCell} (h : RendersRow cols ts rs) :
    isDirtyRow cols rs = false := by
  cases hd : isDirtyRow cols rs with
  | false => rfl
  | true =>
    exfalso
    unfold isDirtyRow at hd
    rcases List.any_eq_true.mp hd with ⟨cp, hmem, hcp⟩
    have hcont : cols.contains cp.1 = true := by
      cases hx : cols.contains cp.1 with
      | true => rfl
      | false =>
        rw [hx] at hcp
        exact absurd hcp (by simp)
    have hkeep : dirtyKeep cols cp.2 cp.1 rs = false := by
      cases hx : dirtyKeep cols cp.2 cp.1 rs with
      | false => rfl
      | true =>
        rw [hcont, hx] at hcp
        exact absurd hcp (by simp)
    have hmemc : cp.1 ∈ cols := by simpa using hcont
    obtain ⟨i, hi⟩ := colIdx?_of_mem hmemc
    obtain ⟨hlt, hget⟩ := colIdx?_spec hi
    have hcell := renders_cell_at h i hlt
    rw [hget] at hcell
    have hkeep' := (dirtyKeep_false_iff cols cp.2 cp.1 rs).mp hkeep
    have hgc : getCell cols rs cp.1 = rs.getD i none := by
      unfold getCell
      rw [hi]
    rw [hgc] at hkeep'
    have hcases : cp = ("title", titlePatterns) ∨ cp = ("rating", ratingPatterns) ∨
        cp = ("price", pricePatterns) := by
      simpa [DIRTY_PATTERNS] using hmem
    rcases hcases with rfl | rfl | rfl
    · simp only [RendersCell, if_true, if_false] at hcell
      obtain ⟨v, htv, hrv, hnp⟩ := hcell
      rcases hkeep' with hnone | ⟨w, hw, hwmem⟩
      · rw [hrv] at hnone
        exact absurd hnone (by simp)
      · rw [hrv] at hw
        exact hnp (by rwa [← Option.some.inj hw] at hwmem)
    · simp only [RendersCell, if_true, if_false] at hcell
      obtain ⟨q, l, htv, hrv, hnl, hp⟩ := hcell
      rcases hkeep' with hnone | ⟨w, hw, hwmem⟩
      · rw [hrv] at hnone
        exact absurd hnone (by simp)
      · rw [hrv] at hw
        exact numlit_not_mem_rating hnl (by rwa [← Option.some.inj hw] at hwmem)
    · simp only [RendersCell, if_true, if_false] at hcell
      obtain ⟨q, l, htv, hrv, hnl, hp⟩ := hcell
      rcases hkeep' with hnone | ⟨w, hw, hwmem⟩
      · rw [hrv] at hnone
        exact absurd hnone (by simp)
      · rw [hrv] at hw
        exact numlit_not_mem_price hnl (by rwa [← Option.some.inj hw] at hwmem)

theorem renders_scale_notnull {c : String} {t : TVal} {r : RawCell}
    (hc : c ∈ REQUIRED_COLUMNS) (h : RendersCell c t r) :
    ¬ scaleCell c t = TVal.vnull := by
  have hc' : c = "price" ∨ c = "rating" ∨ c = "colors" ∨ c = "size" ∨
      c = "gender" := by simpa [REQUIRED_COLUMNS] using hc
  unfold RendersCell at h
  unfold scaleCell
  rcases hc' with rfl | rfl | rfl | rfl | rfl
  · rw [if_pos rfl] at h ⊢
    obtain ⟨q, l, rfl, _⟩ := h
    simp
  · rw [if_neg (by decide), if_pos rfl] at h
    rw [if_neg (by decide)]
    obtain ⟨q, l, rfl, _⟩ := h
    simp
  · rw [if_neg (by decide), if_neg (by decide), if_pos rfl] at h
    rw [if_neg (by decide)]
    obtain ⟨n, l, rfl, _⟩ := h
    simp
  · rw [if_neg (by decide), if_neg (by decide), if_neg (by decide), if_pos rfl] at h
    rw [if_neg (by decide)]
    obtain ⟨v, rfl, _⟩ := h
    simp
  · rw [if_neg (by decide), if_neg (by decide), if_neg (by decide),
      if_neg (by decide), if_pos rfl] at h
    rw [if_neg (by decide)]
    obtain ⟨v, rfl, _⟩ := h
    simp

theorem getD_zipWith_scale {cols : List String} {ts : List TVal} {i : Nat}
    (h1 : i < cols.length) (h2 : i < ts.length) :
    (List.zipWith scaleCell cols ts).getD i TVal.vnull =
      scaleCell (cols.getD i "") (ts.getD i TVal.vnull) := by
  induction cols generalizing ts i with
  | nil => exact absurd h1 (by simp)
  | cons c cs ih =>
    cases ts with
    | nil => exact absurd h2 (by simp)
    | cons t ts =>
      cases i with
      | zero => rfl
      | succ j =>
        simp only [List.zipWith_cons_cons, List.getD_cons_succ]
        exact ih (by simpa using h1) (by simpa using h2)

theorem renders_rowComplete {cols : List String} {ts : List TVal}
    {rs : List RawCell} (hcols : ∀ c ∈ REQUIRED_COLUMNS, cols.count c = 1)
    (h : RendersRow cols ts rs) :
    rowComplete cols (List.zipWith scaleCell cols ts) = true := by
  unfold rowComplete
  apply List.all_eq_true.mpr
  intro c hc
  have hmem : c ∈ cols := List.count_pos_iff.mp (by rw [hcols c hc]; exact Nat.one_pos)
  obtain ⟨i, hi⟩ := colIdx?_of_mem hmem
  obtain ⟨hlt, hget⟩ := colIdx?_spec hi
  rw [hi]
  have hts : ts.length = cols.length := (renders_row_lengths h).1
  show decide ((List.zipWith scaleCell cols ts).getD i TVal.vnull ≠ TVal.vnull) = true
  rw [getD_zipWith_scale hlt (by rw [hts]; exact hlt)]
  have hcell := renders_cell_at h i hlt
  rw [hget] at hcell ⊢
  exact decide_eq_true (renders_scale_notnull hc hcell)

/-- The stringified form of `transform_data dfRowW`'s single output row
(`1608000.0`, `4.8`, `3`, `L`, `Male`), re-fed as a raw frame. -/
def dfRestringW : RawDF :=
  ⟨["title", "price", "rating", "colors", "size", "gender"],
    [[some "Valid Product", some "1608000.0", some "4.8", some "3",
      some "L", some "Male"]]⟩

/-- A raw frame whose size cell carries a doubled label: the anchored
`re.sub(r"^Size:\s*", ...)` strips only one label per run, so its
transform output keeps a `Size: L` size value. -/
def dfSizeW : RawDF :=
  ⟨["title", "price", "rating", "colors", "size", "gender"],
    [[some "Valid Product", some "$100.50", some "4.8 / 5", some "3 Colors",
      some "Size: Size: L", some "Gender: Male"]]⟩

/-- The stringified form of `transform_data dfSizeW`'s single output row,
re-fed as a raw frame (its size cell is `Size: L`). -/
def dfSizeRestringW : RawDF :=
  ⟨["title", "price", "rating", "colors", "size", "gender"],
    [[some "Valid Product", some "1608000.0", some "4.8", some "3",
      some "Size: L", some "Male"]]⟩

/-- Counterexample to C8 as stated, exhibiting both ways a re-run changes
the table.  Price: transforming `dfRowW` yields the row with price
`100.5 × 16000 = 1608000`, and re-running the pipeline on the stringified
output multiplies the price by 16000 again, so the result is NOT the same
table.  Size (and symmetrically gender): transforming `dfSizeW` yields
the reachable output size value `"Size: L"`, and the re-run strips one
more label from it, yielding `"L"` — so even a non-price column changes. -/
theorem C8_transform_idempotence_cex :
    transform_data dfRowW =
      ⟨["title", "price", "rating", "colors", "size", "gender"],
        [[TVal.vstr "Valid Product", TVal.vnum (100.5 * CURRENCY_CONVERSION),
          TVal.vnum (4.8 : ℚ), TVal.vint 3, TVal.vstr "L", TVal.vstr "Male"]]⟩ ∧
    transform_data dfRestringW =
      ⟨["title", "price", "rating", "colors", "size", "gender"],
        [[TVal.vstr "Valid Product", TVal.vnum (1608000 * CURRENCY_CONVERSION),
          TVal.vnum (4.8 : ℚ), TVal.vint 3, TVal.vstr "L", TVal.vstr "Male"]]⟩ ∧
    transform_data dfRestringW ≠ transform_data dfRowW ∧
    transform_data dfSizeW =
      ⟨["title", "price", "rating", "colors", "size", "gender"],
        [[TVal.vstr "Valid Product", TVal.vnum (100.5 * CURRENCY_CONVERSION),
          TVal.vnum (4.8 : ℚ), TVal.vint 3, TVal.vstr "Size: L",
          TVal.vstr "Male"]]⟩ ∧
    transform_data dfSizeRestringW =
      ⟨["title", "price", "rating", "colors", "size", "gender"],
        [[TVal.vstr "Valid Product", TVal.vnum (1608000 * CURRENCY_CONVERSION),
          TVal.vnum (4.8 : ℚ), TVal.vint 3, TVal.vstr "L", TVal.vstr "Male"]]⟩ ∧
    ((transform_data dfSizeRestringW).rows.getD 0 []).getD 4 TVal.vnull ≠
      ((transform_data dfSizeW).rows.getD 0 []).getD 4 TVal.vnull := by
  have h1 : transform_data dfRowW =
      ⟨["title", "price", "rating", "colors", "size", "gender"],
        [[TVal.vstr "Valid Product", TVal.vnum (100.5 * CURRENCY_CONVERSION),
          TVal.vnum (4.8 : ℚ), TVal.vint 3, TVal.vstr "L", TVal.vstr "Male"]]⟩ := by
    simp +decide [transform_data, transformBody, remove_dirty_data, DIRTY_PATTERNS,
      dfRowW, titlePatterns, ratingPatterns, pricePatterns, dirtyKeep, getCell,
      colIdx?, REQUIRED_COLUMNS, rowComplete, cleanCell, clean_price, clean_rating,
      clean_colors, clean_size, clean_gender, commaRule, stripNonNumeric,
      parsePyFloat, keepPriceChar, commaToDot, grabNumToken, findNumToken,
      firstDigitRun, stripLabelCI, matchesLabelCI]
    norm_num [show parseDigitsVal ['1', '0', '0'] = 100 from by decide,
      show parseDigitsVal ['5', '0'] = 50 from by decide,
      show parseDigitsVal ['4'] = 4 from by decide,
      show parseDigitsVal ['8'] = 8 from by decide,
      show parseDigitsVal ['3'] = 3 from by decide, CURRENCY_CONVERSION]
  have h2 : transform_data dfRestringW =
      ⟨["title", "price", "rating", "colors", "size", "gender"],
        [[TVal.vstr "Valid Product", TVal.vnum (1608000 * CURRENCY_CONVERSION),
          TVal.vnum (4.8 : ℚ), TVal.vint 3, TVal.vstr "L", TVal.vstr "Male"]]⟩ := by
    simp +decide [transform_data, transformBody, remove_dirty_data, DIRTY_PATTERNS,
      dfRestringW, titlePatterns, ratingPatterns, pricePatterns, dirtyKeep, getCell,
      colIdx?, REQUIRED_COLUMNS, rowComplete, cleanCell, clean_price, clean_rating,
      clean_colors, clean_size, clean_gender, commaRule, stripNonNumeric,
      parsePyFloat, keepPriceChar, commaToDot, grabNumToken, findNumToken,
      firstDigitRun, stripLabelCI, matchesLabelCI]
    norm_num [show parseDigitsVal ['1', '6', '0', '8', '0', '0', '0'] = 1608000 from by decide,
      show parseDigitsVal ['0'] = 0 from by decide,
      show parseDigitsVal ['4'] = 4 from by decide,
      show parseDigitsVal ['8'] = 8 from by decide,
      show parseDigitsVal ['3'] = 3 from by decide, CURRENCY_CONVERSION]
  have h3 : transform_data dfSizeW =
      ⟨["title", "price", "rating", "colors", "size", "gender"],
        [[TVal.vstr "Valid Product", TVal.vnum (100.5 * CURRENCY_CONVERSION),
          TVal.vnum (4.8 : ℚ), TVal.vint 3, TVal.vstr "Size: L",
          TVal.vstr "Male"]]⟩ := by
    simp +decide [transform_data, transformBody, remove_dirty_data, DIRTY_PATTERNS,
      dfSizeW, titlePatterns, ratingPatterns, pricePatterns, dirtyKeep, getCell,
      colIdx?, REQUIRED_COLUMNS, rowComplete, cleanCell, clean_price, clean_rating,
      clean_colors, clean_size, clean_gender, commaRule, stripNonNumeric,
      parsePyFloat, keepPriceChar, commaToDot, grabNumToken, findNumToken,
      firstDigitRun, stripLabelCI, matchesLabelCI]
    norm_num [show parseDigitsVal ['1', '0', '0'] = 100 from by decide,
      show parseDigitsVal ['5', '0'] = 50 from by decide,
      show parseDigitsVal ['4'] = 4 from by decide,
      show parseDigitsVal ['8'] = 8 from by decide,
      show parseDigitsVal ['3'] = 3 from by decide, CURRENCY_CONVERSION]
  have h4 : transform_data dfSizeRestringW =
      ⟨["title", "price", "rating", "colors", "size", "gender"],
        [[TVal.vstr "Valid Product", TVal.vnum (1608000 * CURRENCY_CONVERSION),
          TVal.vnum (4.8 : ℚ), TVal.vint 3, TVal.vstr "L", TVal.vstr "Male"]]⟩ := by
    simp +decide [transform_data, transformBody, remove_dirty_data, DIRTY_PATTERNS,
      dfSizeRestringW, titlePatterns, ratingPatterns, pricePatterns, dirtyKeep,
      getCell, colIdx?, REQUIRED_COLUMNS, rowComplete, cleanCell, clean_price,
      clean_rating, clean_colors, clean_size, clean_gender, commaRule,
      stripNonNumeric, parsePyFloat, keepPriceChar, commaToDot, grabNumToken,
      findNumToken, firstDigitRun, stripLabelCI, matchesLabelCI]
    norm_num [show parseDigitsVal ['1', '6', '0', '8', '0', '0', '0'] = 1608000 from by decide,
      show parseDigitsVal ['0'] = 0 from by decide,
      show parseDigitsVal ['4'] = 4 from by decide,
      show parseDigitsVal ['8'] = 8 from by decide,
      show parseDigitsVal ['3'] = 3 from by decide, CURRENCY_CONVERSION]
  refine ⟨h1, h2, ?_, h3, h4, ?_⟩
  · rw [h1, h2]
    intro heq
    simp only [TypedDF.mk.injEq, List.cons.injEq, TVal.vnum.injEq, true_and,
      and_true] at heq
    norm_num [CURRENCY_CONVERSION] at heq
  · rw [h3, h4]
    decide

/-- C8 (amended): re-running the transform pipeline on the faithfully
stringified form of an already-cleaned table does NOT return the same
table.  Two columns can change: the price column is multiplied by
`CURRENCY_CONVERSION` (16000) a second time on every re-run, and a size or
gender value that itself still begins with a case-insensitive
`Size:`/`Gender:` label (a reachable output — see the counterexample's
`dfSizeW` run) has one more label stripped.  This theorem proves the
exact behaviour on the label-free fragment: for tables whose size and
gender values do not begin with another label, the re-run returns
precisely the original table with only the price column rescaled by
16000.  `RendersRow` states the stringification hypotheses: each numeric
cell is re-fed as a plain decimal literal of its value, each size/gender
cell as its canonical (stripped, label-free) string, the title as its
original non-placeholder string. -/
theorem C8_transform_idempotence_amended (T : TypedDF)
    (srows : List (List RawCell))
    (hcols : ∀ c ∈ REQUIRED_COLUMNS, T.cols.count c = 1)
    (hrows : T.rows ≠ [])
    (hrel : List.Forall₂ (RendersRow T.cols) T.rows srows) :
    transform_data ⟨T.cols, srows⟩ = scalePriceDF T := by
  have hsne : srows ≠ [] := by
    intro he
    rw [he] at hrel
    exact hrows (List.forall₂_nil_right_iff.mp hrel)
  have hcne : T.cols ≠ [] := by
    have hp : "price" ∈ T.cols :=
      List.count_pos_iff.mp (by rw [hcols "price" (by decide)]; exact Nat.one_pos)
    exact List.ne_nil_of_mem hp
  have hd1 : remove_dirty_data ⟨T.cols, srows⟩ = ⟨T.cols, srows⟩ := by
    rw [remove_dirty_eq]
    simp only [RawDF.mk.injEq, true_and]
    apply List.filter_eq_self.mpr
    intro r hr
    obtain ⟨a, _, hR⟩ := forall₂_mem_right hrel hr
    rw [renders_not_dirty hR]
    rfl
  have hall : (REQUIRED_COLUMNS.all fun c => T.cols.count c == 1) = true :=
    List.all_eq_true.mpr fun c hc => by rw [hcols c hc]; rfl
  have hmap : ∀ (l1 : List (List TVal)) (l2 : List (List RawCell)),
      List.Forall₂ (RendersRow T.cols) l1 l2 →
      l2.map (fun r => List.zipWith cleanCell T.cols r) =
        l1.map (fun r => List.zipWith scaleCell T.cols r) := by
    intro l1 l2 hF
    induction hF with
    | nil => rfl
    | cons hab htail ih => simp only [List.map_cons, renders_row_clean hab, ih]
  have hbody : transformBody ⟨T.cols, srows⟩ = Except.ok (scalePriceDF T) := by
    simp only [transformBody, hd1]
    rw [if_pos hall]
    rw [hmap _ _ hrel]
    have hfilter : (T.rows.map (fun r => List.zipWith scaleCell T.cols r)).filter
        (fun r => rowComplete T.cols r) =
        T.rows.map (fun r => List.zipWith scaleCell T.cols r) := by
      apply List.filter_eq_self.mpr
      intro x hx
      obtain ⟨a, ha, rfl⟩ := List.mem_map.mp hx
      obtain ⟨b, _, hR⟩ := forall₂_mem_left hrel ha
      exact renders_rowComplete hcols hR
    rw [hfilter]
    rfl
  unfold transform_data
  rw [if_neg (by
    have hs : srows.isEmpty = false := by
      cases srows with
      | nil => exact absurd rfl hsne
      | cons a l => rfl
    have hcc : T.cols.isEmpty = false := by
      cases hx : T.cols with
      | nil => exact absurd hx hcne
      | cons a l => rfl
    show ¬ ((srows.isEmpty || T.cols.isEmpty) = true)
    rw [hs, hcc]
    simp)]
  rw [hbody]

def T8W : TypedDF :=
  ⟨["title", "price", "rating", "colors", "size", "gender"],
    [[TVal.vstr "T", TVal.vnum 4, TVal.vnum 4, TVal.vint 3,
      TVal.vstr "L", TVal.vstr "M"]]⟩

/-- Witness for the amended C8 at a concrete one-row typed table and its
stringified form: re-running the transform returns the table with the
price cell scaled by 16000 once more. -/
theorem C8_transform_idempotence_amended_witness :
    transform_data
      ⟨["title", "price", "rating", "colors", "size", "gender"],
        [[some "T", some "4", some "4", some "3", some "L", some "M"]]⟩ =
      scalePriceDF T8W := by
  have hparse4 : parsePyFloat (String.mk ['4']) = some (4 : ℚ) := by
    rw [parsePyFloat_digits (by unfold AllDigit; decide) (by decide)]
    norm_num [show parseDigitsVal ['4'] = 4 from by decide]
  have hcell2 : RendersCell "price" (TVal.vnum 4) (some "4") :=
    ⟨4, ['4'], rfl, rfl, Or.inl ⟨by unfold AllDigit; decide, by decide⟩, hparse4⟩
  have hcell3 : RendersCell "rating" (TVal.vnum 4) (some "4") := by
    show ∃ q l, TVal.vnum (4 : ℚ) = TVal.vnum q ∧ (some "4" : RawCell) = some (String.mk l) ∧
      NumLit l ∧ parsePyFloat (String.mk l) = some q
    exact ⟨4, ['4'], rfl, rfl, Or.inl ⟨by unfold AllDigit; decide, by decide⟩, hparse4⟩
  exact C8_transform_idempotence_amended T8W
    [[some "T", some "4", some "4", some "3", some "L", some "M"]]
    (by intro c hc; fin_cases hc <;> decide)
    (by decide)
    (List.Forall₂.cons
      ⟨⟨"T", rfl, rfl, by decide⟩,
        hcell2,
        hcell3,
        ⟨3, ['3'], rfl, rfl, by unfold AllDigit; decide, by decide, by decide⟩,
        ⟨"L", rfl, rfl, by decide, by decide, by decide⟩,
        ⟨"M", rfl, rfl, by decide, by decide, by decide⟩,
        trivial⟩
      List.Forall₂.nil)
